import Mathlib

/-!
# Verification of the OnlyFans bio-link detector

Shallow embedding of the detection pipeline of this repository
(`onlyfans_detector_hybrid_final.py`, `onlyfans_detector.py`,
`onlyfans_detector_enhanced.py`, `api_server.py`) together with proofs of
the specification claims about it.

Modelling conventions:
* Python strings are Lean `String`s; character-level work is done on
  `List Char` (`String.data`).
* `str.lower()` is modelled ASCII-only by `lowerChar` / `lowerString`
  (the inputs involved are URLs and HTML markup).
* Network and browser I/O is abstracted into environment records: every
  HTTP fetch the code performs is an `Except String Resp` value supplied by
  the environment (`.error e` models the request raising an exception `e`,
  `.ok` a response).  The control flow acting on those values is translated
  from the source line by line.
* `re.findall(r'https?://[^\s<>"\']*onlyfans\.com[^\s<>"\']*', s, re.IGNORECASE)`
  is modelled by `ofUrlFindall`: at each position where `http://` or
  `https://` occurs (case-insensitively), the maximal run of characters
  excluded from the regex's negated classes is a match iff it contains
  `onlyfans.com` (case-insensitively); scanning resumes after a match.
  This is exactly the match set of the Python regex, because the two inner
  character classes are identical and greedy.
-/

namespace OFDetector

/-- The ASCII upper-case letters paired with their lower-case forms. -/
def upperLower : List (Char × Char) :=
  [('A','a'),('B','b'),('C','c'),('D','d'),('E','e'),('F','f'),('G','g'),
   ('H','h'),('I','i'),('J','j'),('K','k'),('L','l'),('M','m'),('N','n'),
   ('O','o'),('P','p'),('Q','q'),('R','r'),('S','s'),('T','t'),('U','u'),
   ('V','v'),('W','w'),('X','x'),('Y','y'),('Z','z')]

/-- ASCII model of Python `str.lower` on a single character. -/
def lowerChar (c : Char) : Char :=
  match upperLower.find? (fun p => p.1 = c) with
  | some p => p.2
  | none => c

/-- The lower-case ASCII letters. -/
def lowercaseLetters : List Char := upperLower.map Prod.snd

theorem lowerChar_cases (c : Char) :
    lowerChar c = c ∨ lowerChar c ∈ lowercaseLetters := by
  unfold lowerChar
  cases hf : upperLower.find? (fun p => p.1 = c) with
  | none => exact Or.inl rfl
  | some p =>
    exact Or.inr (List.mem_map.mpr ⟨p, List.mem_of_find?_eq_some hf, rfl⟩)

theorem lowerChar_fix_of_lower {x : Char} (hx : x ∈ lowercaseLetters) :
    lowerChar x = x := by
  have : ∀ x ∈ lowercaseLetters, lowerChar x = x := by decide
  exact this x hx

theorem lowerChar_idem (c : Char) : lowerChar (lowerChar c) = lowerChar c := by
  rcases lowerChar_cases c with h | h
  · rw [h]; exact h
  · exact lowerChar_fix_of_lower h

/-- ASCII model of Python `str.lower` on a string. -/
def lowerString (s : String) : String := ⟨s.data.map lowerChar⟩

/-- `sub` occurs as a contiguous sublist of `s` (model of Python `in` on str). -/
def containsSub (s sub : List Char) : Bool :=
  match s with
  | [] => decide (sub = [])
  | _ :: tl => sub.isPrefixOf s || containsSub tl sub

/-- Python `sub in s` on strings. -/
def containsStr (s sub : String) : Bool := containsSub s.data sub.data

/-- Characters excluded by the regex character class `[^\s<>"\']`
(ASCII whitespace model of `\s`). -/
def urlDelim (c : Char) : Bool :=
  c = ' ' || c = '\t' || c = '\n' || c = '\r' || c = '\x0b' || c = '\x0c' ||
  c = '<' || c = '>' || c = '"' || c = '\''

/-- Maximal run of non-delimiter characters at the head of the input
(the greedy span of `[^\s<>"\']*`). -/
def takeRun : List Char → List Char
  | [] => []
  | c :: cs => if urlDelim c then [] else c :: takeRun cs

/-- Does the position start with `https://` or `http://`, case-insensitively?
Returns the scheme length. -/
def schemeAt (s : List Char) : Option Nat :=
  if "https://".data.isPrefixOf (s.map lowerChar) then some 8
  else if "http://".data.isPrefixOf (s.map lowerChar) then some 7
  else none

/-- Case-insensitive `onlyfans.com` membership test. -/
def containsOF (run : List Char) : Bool :=
  containsSub (run.map lowerChar) "onlyfans.com".data

/-- Fuel-indexed scanner for the OnlyFans URL regex; at each position a match
begins iff the scheme is present and the maximal non-delimiter run contains
`onlyfans.com`; the whole run is the (greedy) match, and scanning continues
past it, as `re.findall` does for non-overlapping matches. -/
def ofUrlScanAux : Nat → List Char → List (List Char)
  | 0, _ => []
  | _ + 1, [] => []
  | fuel + 1, c :: cs =>
    match schemeAt (c :: cs) with
    | some _ =>
      let run := takeRun (c :: cs)
      if containsOF run then
        run :: ofUrlScanAux fuel ((c :: cs).drop run.length)
      else
        ofUrlScanAux fuel cs
    | none => ofUrlScanAux fuel cs

/-- All matches of `https?://[^\s<>"\']*onlyfans\.com[^\s<>"\']*` (IGNORECASE). -/
def ofUrlScan (s : List Char) : List (List Char) := ofUrlScanAux s.length s

/-- String-level wrapper around `ofUrlScan`. -/
def ofUrlFindall (s : String) : List String := (ofUrlScan s.data).map String.mk

/-- Model of Python `list(set(xs))`: duplicates removed.  (CPython's set
iteration order is unspecified; `List.dedup` picks one representative order,
and no claim depends on the order.) -/
def dedupS (xs : List String) : List String := xs.dedup

theorem takeRun_subset {s : List Char} : ∀ c ∈ takeRun s, c ∈ s := by
  induction s with
  | nil => simp [takeRun]
  | cons hd tl ih =>
    intro c hc
    unfold takeRun at hc
    by_cases h : urlDelim hd
    · simp [h] at hc
    · simp only [h, if_neg, Bool.false_eq_true, if_false] at hc
      rcases List.mem_cons.mp hc with h1 | h2
      · simp [h1]
      · exact List.mem_cons_of_mem _ (ih c h2)

theorem ofUrlScanAux_chars_subset :
    ∀ (fuel : Nat) (s : List Char) (u : List Char),
      u ∈ ofUrlScanAux fuel s → ∀ c ∈ u, c ∈ s := by
  intro fuel
  induction fuel with
  | zero => intro s u hu; simp [ofUrlScanAux] at hu
  | succ n ih =>
    intro s u hu c hc
    match s with
    | [] => simp [ofUrlScanAux] at hu
    | hd :: tl =>
      unfold ofUrlScanAux at hu
      cases hsch : schemeAt (hd :: tl) with
      | none =>
        simp only [hsch] at hu
        exact List.mem_cons_of_mem _ (ih tl u hu c hc)
      | some k =>
        simp only [hsch] at hu
        by_cases hof : containsOF (takeRun (hd :: tl))
        · simp only [hof, if_true] at hu
          rcases List.mem_cons.mp hu with h1 | h2
          · exact takeRun_subset c (h1 ▸ hc)
          · have := ih _ u h2 c hc
            exact List.mem_of_mem_drop this
        · simp only [hof, Bool.false_eq_true, if_false] at hu
          exact List.mem_cons_of_mem _ (ih tl u hu c hc)

theorem ofUrlScan_chars_subset {s u : List Char} (hu : u ∈ ofUrlScan s) :
    ∀ c ∈ u, c ∈ s :=
  ofUrlScanAux_chars_subset s.length s u hu

/-- Every character of a lowered string is a fixed point of `lowerChar`. -/
theorem mem_map_lower_fixed {s : List Char} {c : Char}
    (hc : c ∈ s.map lowerChar) : lowerChar c = c := by
  rcases List.mem_map.mp hc with ⟨d, _, rfl⟩
  exact lowerChar_idem d

theorem map_lower_eq_self {l : List Char} (h : ∀ c ∈ l, lowerChar c = c) :
    l.map lowerChar = l := by
  induction l with
  | nil => rfl
  | cons hd tl ih =>
    simp only [List.map_cons, h hd (List.mem_cons_self hd tl),
      ih fun c hc => h c (List.mem_cons_of_mem hd hc)]

theorem dedupS_ne_nil {xs : List String} (h : xs ≠ []) : dedupS xs ≠ [] := by
  simpa [dedupS, List.dedup_eq_nil] using h

theorem mem_of_mem_dedupS {xs : List String} {u : String} (h : u ∈ dedupS xs) :
    u ∈ xs := List.mem_dedup.mp h

/-! ## Data model

`DetRes` is the `self.results` dictionary of `HybridFinalDetector`
(`onlyfans_detector_hybrid_final.py`): keys `has_onlyfans`, `onlyfans_urls`,
`detection_method`, `debug_info`, `errors`; the key
`age_verification_detected` is absent initially (`dict.get` default `False`),
hence an `Option Bool`. -/

/-- An HTTP response as the detector observes it: status code, the
`location` header, the body text. -/
structure Resp where
  status : Nat
  location : Option String
  text : String
deriving Repr, DecidableEq, Inhabited

/-- The per-call results dictionary. -/
structure DetRes where
  has_onlyfans : Bool
  onlyfans_urls : List String
  detection_method : Option String
  debug_info : List String
  errors : List String
  age_verification_detected : Option Bool
deriving Repr, DecidableEq, Inhabited

/-- The dictionary `detect_onlyfans` resets at entry (lines 109–115). -/
def initRes : DetRes :=
  { has_onlyfans := false, onlyfans_urls := [], detection_method := none,
    debug_info := [], errors := [], age_verification_detected := none }

/-- `self.results["debug_info"].append(m)` -/
def addDebug (r : DetRes) (m : String) : DetRes :=
  { r with debug_info := r.debug_info ++ [m] }

/-- `self.results["errors"].append(m)` -/
def addErr (r : DetRes) (m : String) : DetRes :=
  { r with errors := r.errors ++ [m] }

/-- `self.results["has_onlyfans"] = True; self.results["onlyfans_urls"] = us` -/
def setFound (r : DetRes) (us : List String) : DetRes :=
  { r with has_onlyfans := true, onlyfans_urls := us }

/-- `self.results["detection_method"] = m` -/
def setMethod (r : DetRes) (m : String) : DetRes :=
  { r with detection_method := some m }

/-- `self.results.get("age_verification_detected", False)` -/
def ageFlag (r : DetRes) : Bool := r.age_verification_detected.getD false

/-! ## Phase 1: `HybridFinalDetector._phase1_fast_detection` (lines 166–184)

Fetch the bio link; on a 200 response lower-case the body, run the OnlyFans
URL regex, and on any match record the deduplicated URLs and succeed.  Any
exception is recorded as `Phase 1 failed: ...` and the phase fails. -/

def phase1 (fetch : Except String Resp) (r : DetRes) : Bool × DetRes :=
  match fetch with
  | .error e => (false, addErr r ("Phase 1 failed: " ++ e))
  | .ok resp =>
    if resp.status = 200 then
      let content := lowerString resp.text
      let ofUrls := ofUrlFindall content
      if ofUrls ≠ [] then (true, setFound r (dedupS ofUrls))
      else (false, r)
    else (false, r)

/-! ## C10: phase-1 evidence URLs are fully lower-case -/

/-- C10 — In phase 1 of the hybrid pipeline the URL regex is applied to
`response.text.lower()`, so whenever phase 1 succeeds, every evidence URL in
the result is fully lower-case: the page's original casing is not
preserved. -/
theorem phase1_evidence_lowercase (fetch : Except String Resp) (r r' : DetRes)
    (u : String) (h : phase1 fetch r = (true, r'))
    (hu : u ∈ r'.onlyfans_urls) : lowerString u = u := by
  cases fetch with
  | error e => simp [phase1] at h
  | ok resp =>
    simp only [phase1] at h
    by_cases hst : resp.status = 200
    · rw [if_pos hst] at h
      by_cases hne : ofUrlFindall (lowerString resp.text) ≠ []
      · rw [if_pos hne] at h
        have hr' : setFound r (dedupS (ofUrlFindall (lowerString resp.text))) = r' :=
          congrArg Prod.snd h
        subst hr'
        simp only [setFound] at hu
        have humem : u ∈ ofUrlFindall (lowerString resp.text) :=
          mem_of_mem_dedupS hu
        rcases List.mem_map.mp humem with ⟨l, hl, rfl⟩
        have hsub : ∀ c ∈ l, c ∈ (lowerString resp.text).data :=
          ofUrlScan_chars_subset hl
        have hfix : ∀ c ∈ l, lowerChar c = c := by
          intro c hc
          exact mem_map_lower_fixed (hsub c hc)
        show String.mk (l.map lowerChar) = String.mk l
        rw [map_lower_eq_self hfix]
      · rw [if_neg hne] at h
        simp at h
    · rw [if_neg hst] at h
      simp at h

/-- A concrete 200 response whose body names the target profile in mixed
case: used to witness C10. -/
def c10fetchW : Except String Resp :=
  .ok { status := 200, location := none,
        text := "See HTTPS://OnlyFans.com/MixedCase now" }

/-- The result phase 1 produces on `c10fetchW`. -/
def c10resW : DetRes := (phase1 c10fetchW initRes).2

/-- Witness for C10: phase 1 succeeds on the mixed-case page and the recorded
evidence URL is the lower-cased `https://onlyfans.com/mixedcase`, on which
the theorem applies. -/
theorem phase1_evidence_lowercase_witness :
    phase1 c10fetchW initRes = (true, c10resW) ∧
    c10resW.onlyfans_urls = ["https://onlyfans.com/mixedcase"] ∧
    lowerString "https://onlyfans.com/mixedcase" = "https://onlyfans.com/mixedcase" :=
  ⟨by decide, by decide,
    phase1_evidence_lowercase c10fetchW initRes c10resW
      "https://onlyfans.com/mixedcase" (by decide) (by decide)⟩

/-! ## C2: exclusion of `/files` and `/public` asset URLs

`OnlyFansDetector._check_direct_links` (`onlyfans_detector.py` lines 61–85)
does filter the regex hits, but the hybrid pipeline's
`_phase1_fast_detection` does not. -/

/-- The evidence computation of `OnlyFansDetector._check_direct_links`:
regex hits on the lower-cased body, then
`[url for url in of_urls if '/files' not in url and '/public' not in url]`. -/
def checkDirectLinksUrls (content : String) : List String :=
  (ofUrlFindall (lowerString content)).filter
    (fun url => !containsStr url "/files" && !containsStr url "/public")

/-- Text containing a profile URL and an asset URL, the spec's evidence
exclusion example instantiated at the target domain. -/
def c2text : String :=
  "Links: https://onlyfans.com/alice and https://onlyfans.com/files/x.jpg"

/-- C2 counterexample — the hybrid pipeline's phase-1 extraction applies no
`/files` exclusion: on a page containing both the profile URL and the
`/files` asset URL it returns both, and succeeds with the asset URL among
the evidence. -/
theorem phase1_files_not_excluded :
    (phase1 (.ok { status := 200, location := none, text := c2text }) initRes).2.onlyfans_urls =
      ["https://onlyfans.com/alice", "https://onlyfans.com/files/x.jpg"] ∧
    containsStr "https://onlyfans.com/files/x.jpg" "/files" = true := by
  decide

/-- C2 amended — the `/files` and `/public` exclusion holds of the legacy
detector's `_check_direct_links` evidence (not of the hybrid pipeline's
phase 1): no URL it returns contains `/files` or `/public`. -/
theorem checkDirectLinks_excludes (content u : String)
    (hu : u ∈ checkDirectLinksUrls content) :
    containsStr u "/files" = false ∧ containsStr u "/public" = false := by
  have := List.of_mem_filter hu
  simp only [Bool.and_eq_true, Bool.not_eq_true'] at this
  exact this

/-- Witness for the amended C2: on the spec's example text,
`_check_direct_links` keeps only the profile URL, and the theorem applies
to it. -/
theorem checkDirectLinks_excludes_witness :
    checkDirectLinksUrls c2text = ["https://onlyfans.com/alice"] ∧
    ("https://onlyfans.com/alice" ∈ checkDirectLinksUrls c2text ∧
      containsStr "https://onlyfans.com/alice" "/files" = false ∧
      containsStr "https://onlyfans.com/alice" "/public" = false) :=
  ⟨by decide,
    by decide,
    checkDirectLinks_excludes c2text "https://onlyfans.com/alice" (by decide)⟩

/-! ## C7: `OnlyFansDetector._follow_redirects` (`onlyfans_detector.py` 310–333)

`chain = [url]; current = url; for _ in range(max_redirects): HEAD current;
on 3xx with a location, resolve it (urljoin for `/`-relative, verbatim
otherwise) and append to the chain; on missing location, non-redirect
status, or any exception, stop; finally return (current, chain)`. -/

/-- `resp.status_code in (301, 302, 303, 307, 308)` -/
def isRedirectStatus (n : Nat) : Bool :=
  n == 301 || n == 302 || n == 303 || n == 307 || n == 308

/-- `location.startswith('/')` -/
def startsWithSlash (s : String) : Bool :=
  match s.data with
  | [] => false
  | c :: _ => c == '/'

/-- `location.startswith('http')` (case-sensitive, as Python `startswith`). -/
def startsWithHttp (s : String) : Bool := "http".data.isPrefixOf s.data

/-- Split a URL's characters at the first `://`, keeping the separator with
the scheme part. -/
def splitScheme : List Char → List Char × List Char
  | [] => ([], [])
  | ':' :: '/' :: '/' :: rest => ([':', '/', '/'], rest)
  | c :: cs =>
    let p := splitScheme cs
    (c :: p.1, p.2)

/-- scheme + `://` + host of a URL. -/
def schemeHost (url : String) : String :=
  let p := splitScheme url.data
  ⟨p.1 ++ p.2.takeWhile (fun c => !(c == '/'))⟩

/-- Model of `urljoin(current, location)` for a `location` beginning with
`/`: the location replaces the whole path of `current`. -/
def urljoinSlash (current loc : String) : String := schemeHost current ++ loc

/-- The `for _ in range(max_redirects)` loop of `_follow_redirects`,
recursing on the remaining iteration count. -/
def followAux (fetch : String → Except String Resp) :
    Nat → String → List String → String × List String
  | 0, current, chain => (current, chain)
  | n + 1, current, chain =>
    match fetch current with
    | .error _ => (current, chain)
    | .ok resp =>
      if isRedirectStatus resp.status then
        match resp.location with
        | some loc =>
          let next := if startsWithSlash loc then urljoinSlash current loc else loc
          followAux fetch n next (chain ++ [next])
        | none => (current, chain)
      else (current, chain)

/-- `_follow_redirects(client, url, max_redirects)`, returning
`(final_url, chain)`. -/
def followRedirects (fetch : String → Except String Resp) (url : String)
    (maxRedirects : Nat) : String × List String :=
  followAux fetch maxRedirects url [url]

theorem followAux_succ_redirect {fetch : String → Except String Resp}
    {n : Nat} {current loc : String} {chain : List String} (resp : Resp)
    (hf : fetch current = .ok resp) (hst : isRedirectStatus resp.status = true)
    (hloc : resp.location = some loc) (hs : startsWithSlash loc = false) :
    followAux fetch (n + 1) current chain = followAux fetch n loc (chain ++ [loc]) := by
  conv_lhs => rw [followAux]
  rw [hf]
  simp [hst, hloc, hs]

theorem followAux_succ_stop {fetch : String → Except String Resp}
    {n : Nat} {current : String} {chain : List String} (resp : Resp)
    (hf : fetch current = .ok resp) (hst : isRedirectStatus resp.status = false) :
    followAux fetch (n + 1) current chain = (current, chain) := by
  conv_lhs => rw [followAux]
  rw [hf]
  simp [hst]

theorem followAux_succ_error {fetch : String → Except String Resp}
    {n : Nat} {current e : String} {chain : List String}
    (hf : fetch current = .error e) :
    followAux fetch (n + 1) current chain = (current, chain) := by
  conv_lhs => rw [followAux]
  rw [hf]

/-- C7 — Given a 3-hop redirect chain `u0 → u1 → u2 → u3` whose end answers
200, `_follow_redirects` with `max_redirects ≥ 3` returns a chain of length
exactly 4 — origin plus the 3 hops — whose terminal entry is the final URL;
and if instead the final hop raises (timeout/network failure, modelled by
`g u3 = .error e`), the resolver does not raise: it returns the same
accumulated chain. -/
theorem followRedirects_resolver (fetch g : String → Except String Resp)
    (u0 u1 u2 u3 t0 t1 t2 t3 e : String) (loc3 : Option String) (m : Nat)
    (h0 : fetch u0 = .ok ⟨301, some u1, t0⟩)
    (h1 : fetch u1 = .ok ⟨302, some u2, t1⟩)
    (h2 : fetch u2 = .ok ⟨307, some u3, t2⟩)
    (h3 : fetch u3 = .ok ⟨200, loc3, t3⟩)
    (g0 : g u0 = .ok ⟨301, some u1, t0⟩)
    (g1 : g u1 = .ok ⟨302, some u2, t1⟩)
    (g2 : g u2 = .ok ⟨307, some u3, t2⟩)
    (g3 : g u3 = .error e)
    (s1 : startsWithSlash u1 = false) (s2 : startsWithSlash u2 = false)
    (s3 : startsWithSlash u3 = false) (hm : 3 ≤ m) :
    followRedirects fetch u0 m = (u3, [u0, u1, u2, u3]) ∧
    followRedirects g u0 m = (u3, [u0, u1, u2, u3]) := by
  obtain ⟨k, rfl⟩ : ∃ k, m = k + 3 := ⟨m - 3, by omega⟩
  constructor
  · show followAux fetch (k + 2 + 1) u0 [u0] = (u3, [u0, u1, u2, u3])
    rw [followAux_succ_redirect ⟨301, some u1, t0⟩ h0 (by rfl) rfl s1]
    show followAux fetch (k + 1 + 1) u1 [u0, u1] = (u3, [u0, u1, u2, u3])
    rw [followAux_succ_redirect ⟨302, some u2, t1⟩ h1 (by rfl) rfl s2]
    show followAux fetch (k + 0 + 1) u2 [u0, u1, u2] = (u3, [u0, u1, u2, u3])
    rw [followAux_succ_redirect ⟨307, some u3, t2⟩ h2 (by rfl) rfl s3]
    show followAux fetch k u3 [u0, u1, u2, u3] = (u3, [u0, u1, u2, u3])
    cases k with
    | zero => rfl
    | succ n => exact followAux_succ_stop ⟨200, loc3, t3⟩ h3 (by rfl)
  · show followAux g (k + 2 + 1) u0 [u0] = (u3, [u0, u1, u2, u3])
    rw [followAux_succ_redirect ⟨301, some u1, t0⟩ g0 (by rfl) rfl s1]
    show followAux g (k + 1 + 1) u1 [u0, u1] = (u3, [u0, u1, u2, u3])
    rw [followAux_succ_redirect ⟨302, some u2, t1⟩ g1 (by rfl) rfl s2]
    show followAux g (k + 0 + 1) u2 [u0, u1, u2] = (u3, [u0, u1, u2, u3])
    rw [followAux_succ_redirect ⟨307, some u3, t2⟩ g2 (by rfl) rfl s3]
    show followAux g k u3 [u0, u1, u2, u3] = (u3, [u0, u1, u2, u3])
    cases k with
    | zero => rfl
    | succ n => exact followAux_succ_error g3

/-- Concrete 3-hop fetch environment for the C7 witness. -/
def c7fetch : String → Except String Resp := fun u =>
  if u = "https://s.example/a" then .ok ⟨301, some "https://s.example/b", ""⟩
  else if u = "https://s.example/b" then .ok ⟨302, some "https://s.example/c", ""⟩
  else if u = "https://s.example/c" then .ok ⟨307, some "https://t.example/final", ""⟩
  else .ok ⟨200, none, "done"⟩

/-- Same chain but the final hop raises. -/
def c7fetchErr : String → Except String Resp := fun u =>
  if u = "https://s.example/a" then .ok ⟨301, some "https://s.example/b", ""⟩
  else if u = "https://s.example/b" then .ok ⟨302, some "https://s.example/c", ""⟩
  else if u = "https://s.example/c" then .ok ⟨307, some "https://t.example/final", ""⟩
  else .error "timeout"

/-- Witness for C7 at the default `max_redirects = 5`. -/
theorem followRedirects_resolver_witness :
    followRedirects c7fetch "https://s.example/a" 5 =
      ("https://t.example/final",
       ["https://s.example/a", "https://s.example/b", "https://s.example/c",
        "https://t.example/final"]) ∧
    followRedirects c7fetchErr "https://s.example/a" 5 =
      ("https://t.example/final",
       ["https://s.example/a", "https://s.example/b", "https://s.example/c",
        "https://t.example/final"]) :=
  followRedirects_resolver c7fetch c7fetchErr
    "https://s.example/a" "https://s.example/b" "https://s.example/c"
    "https://t.example/final" "" "" "" "done" "timeout" none 5
    (by rfl) (by rfl) (by rfl) (by rfl)
    (by rfl) (by rfl) (by rfl) (by rfl)
    (by decide) (by decide) (by decide) (by decide)

/-! ## C4: the `/batch` endpoint (`api_server.py::batch_detect`, lines 105–195)

After format validation and the 100-link cap check, the endpoint loops over
the links, calling the detector on each inside a `try` whose
`asyncio.TimeoutError` and generic `except` branches append an error-bearing
fallback dict for that target and move on. -/

/-- Outcome of `asyncio.run(detect_onlyfans_in_bio_link(bio_link))` for one
target: a result dict, an `asyncio.TimeoutError`, or another exception. -/
inductive DetectOutcome where
  | ok (r : DetRes)
  | timeout
  | exc (msg : String)
deriving Repr, DecidableEq

/-- One entry of the batch response array.  The success shape is the result
dict plus `result['request'] = {'bio_link': ...}`; the failure shapes are
the fallback dicts of lines 167–175 and 178–186 (which carry `error` and
`bio_link` keys instead of `request`). -/
structure BatchEntry where
  request : Option String
  bio_link : Option String
  error : Option String
  has_onlyfans : Bool
  onlyfans_urls : List String
  detection_method : Option String
  errors : List String
  debug_info : List String
deriving Repr, DecidableEq

/-- The loop body of `batch_detect` for one link. -/
def batchEntry (detect : String → DetectOutcome) (link : String) : BatchEntry :=
  match detect link with
  | .ok r =>
    { request := some link, bio_link := none, error := none,
      has_onlyfans := r.has_onlyfans, onlyfans_urls := r.onlyfans_urls,
      detection_method := r.detection_method, errors := r.errors,
      debug_info := r.debug_info }
  | .timeout =>
    { request := none, bio_link := some link,
      error := some ("Timeout processing " ++ link),
      has_onlyfans := false, onlyfans_urls := [], detection_method := none,
      errors := ["Timeout after 30 seconds"], debug_info := [] }
  | .exc e =>
    { request := none, bio_link := some link,
      error := some ("Failed to process " ++ link ++ ": " ++ e),
      has_onlyfans := false, onlyfans_urls := [], detection_method := none,
      errors := [e], debug_info := [] }

/-- `batch_detect` on an already-normalized list of target URLs: reject
more than 100 links (HTTP 400), else one entry per link in order. -/
def batchDetect (detect : String → DetectOutcome) (bioLinks : List String) :
    Except String (List BatchEntry) :=
  if bioLinks.length > 100 then
    .error "Maximum 100 bio links per batch."
  else
    .ok (bioLinks.map (batchEntry detect))

/-- C4 — For a batch of at most 100 targets the endpoint returns exactly one
result per input, in input order; the `i`-th result is a function of the
`i`-th link and its own detection outcome only (so a failure of one target
cannot affect the others); and a target whose detection raises — timeout or
any other exception — yields its own entry with `has_onlyfans = false` and a
non-empty `errors` list. -/
theorem batch_cardinality_isolation (detect : String → DetectOutcome)
    (links : List String) (h : links.length ≤ 100) :
    ∃ out, batchDetect detect links = .ok out ∧
      out.length = links.length ∧
      (∀ (i : Nat) (l : String), links[i]? = some l →
        out[i]? = some (batchEntry detect l)) ∧
      (∀ (i : Nat) (l e : String), links[i]? = some l → detect l = .exc e →
        ∃ b, out[i]? = some b ∧ b.has_onlyfans = false ∧ b.errors ≠ []) ∧
      (∀ (i : Nat) (l : String), links[i]? = some l → detect l = .timeout →
        ∃ b, out[i]? = some b ∧ b.has_onlyfans = false ∧ b.errors ≠ []) := by
  refine ⟨links.map (batchEntry detect), ?_, by simp, ?_, ?_, ?_⟩
  · unfold batchDetect
    rw [if_neg (by omega)]
  · intro i l hl
    simp [List.getElem?_map, hl]
  · intro i l e hl hd
    refine ⟨batchEntry detect l, by simp [List.getElem?_map, hl], ?_, ?_⟩
    · simp [batchEntry, hd]
    · simp [batchEntry, hd]
  · intro i l hl hd
    refine ⟨batchEntry detect l, by simp [List.getElem?_map, hl], ?_, ?_⟩
    · simp [batchEntry, hd]
    · simp [batchEntry, hd]

/-- Spec scenario environment: three targets, the second throws a transport
error. -/
def c4detect : String → DetectOutcome := fun l =>
  if l = "https://a.example/u" then .ok (setFound initRes ["https://onlyfans.com/a"])
  else if l = "https://b.example/u" then .exc "connection refused"
  else .ok initRes

/-- The three-target batch of the spec scenario. -/
def c4links : List String :=
  ["https://a.example/u", "https://b.example/u", "https://c.example/u"]

/-- Witness for C4 at the spec's three-target scenario. -/
theorem batch_cardinality_isolation_witness :
    c4links.length ≤ 100 ∧
    (∃ out, batchDetect c4detect c4links = .ok out ∧
      out.length = c4links.length ∧
      (∀ (i : Nat) (l : String), c4links[i]? = some l →
        out[i]? = some (batchEntry c4detect l)) ∧
      (∀ (i : Nat) (l e : String), c4links[i]? = some l → c4detect l = .exc e →
        ∃ b, out[i]? = some b ∧ b.has_onlyfans = false ∧ b.errors ≠ []) ∧
      (∀ (i : Nat) (l : String), c4links[i]? = some l → c4detect l = .timeout →
        ∃ b, out[i]? = some b ∧ b.has_onlyfans = false ∧ b.errors ≠ [])) :=
  ⟨by decide, batch_cardinality_isolation c4detect c4links (by decide)⟩

/-! ## C8: the age-gate signal check (`_handle_linkme_fallback`, lines 697–726)

The source declares the fixed vocabulary `age_verification_indicators` and
then loops

```
for indicator in age_verification_indicators:
    # Search in entire content, not just first 1000 chars
        age_verification_found = True
        found_indicators.append(indicator)
```

the `if indicator.lower() in content.lower():` membership test is missing
(only its comment remains), so the loop body runs for every indicator no
matter what the content is.  The same function later performs the correct
test `any(indicator.lower() in content.lower() for indicator in
age_verification_indicators)` (lines 798, 826). -/

/-- The fixed vocabulary of age-verification phrases (lines 698–705). -/
def ageVerificationIndicators : List String :=
  ["18+", "18 plus", "age verification", "age gate", "age check",
   "confirm age", "verify age", "enter site", "i\x27m 18+", "i am 18+",
   "adult content", "mature content", "nsfw", "explicit content",
   "click to enter", "proceed to site", "continue to site",
   "age confirmation", "age verification required", "adult warning",
   "mature warning", "explicit warning", "adult site", "mature site"]

set_option linter.unusedVariables false in
/-- The indicator loop exactly as written (lines 707–713): the state is
`(age_verification_found, found_indicators)`; the loop body never consults
`content`. -/
def ageGateLoop (content : String) : Bool × List String :=
  ageVerificationIndicators.foldl (fun st ind => (true, st.2 ++ [ind])) (false, [])

/-- The correct membership test appearing later in the same function
(lines 798 and 826). -/
def ageVerificationAny (content : String) : Bool :=
  ageVerificationIndicators.any
    (fun ind => containsStr (lowerString content) (lowerString ind))

/-- C8 — the age-gate check is NOT the claimed characteristic function of
the phrase vocabulary: on the text `"hello"`, which contains none of the
phrases (the in-function `any` test is `false`), the loop still reports
`age_verification_found = True`; indeed it reports `True` for every input
text. -/
theorem ageGateLoop_always_true :
    (ageGateLoop "hello").1 = true ∧
    ageVerificationAny "hello" = false ∧
    (∀ content : String, (ageGateLoop content).1 = true) :=
  ⟨by decide, by decide, fun _ => rfl⟩

/-! ## C5: termination of `EnhancedOnlyFansDetector.detect_onlyfans`
(`onlyfans_detector_enhanced.py` lines 31–66, 108–134, 557–592)

Phases 1 and 2 and strategies 1–4 of phase 3 are plain HTTP probes that
never re-enter the pipeline; they are abstracted here to their success
outcomes.  Strategy 5, `_handle_dynamic_content`, is the part the claim
cites and is translated in full: for a link whose lower-cased form contains
`xli.ink` it re-invokes the whole pipeline on the same URL
(`return await self.detect_onlyfans(bio_link)`, line 585) with no retry
bound; the returned results dict is non-empty hence truthy, so a returning
re-invocation makes strategy 5 — and phase 3 — succeed.  The model makes the
recursion depth explicit with a fuel parameter: `none` means the recursion
budget is exhausted, so if the value is `none` for *every* fuel, the Python
call never returns. -/

/-- Success outcomes of the enhanced detector's non-recursive probes. -/
structure EnhEnv where
  phase1 : Bool
  phase2 : Bool
  altPaths : Bool
  jsVars : Bool
  mobileContent : Bool
  mobileExtraction : Bool
deriving Repr, DecidableEq

/-- One entry into `EnhancedOnlyFansDetector.detect_onlyfans` (which resets
`self.results` on entry), given the outcome `recur` of a possible
re-invocation by `_handle_dynamic_content`: `none` = no recursion budget
left, `some res` = the re-invocation returned `res`. -/
def enhDetectCore (env : EnhEnv) (bioLink : String)
    (recur : Option (Option DetRes)) : Option DetRes :=
  if env.phase1 then
    some (setMethod initRes "Phase 1: Direct HTTP detection")
  else if env.phase2 then
    some (setMethod initRes "Phase 2: Enhanced HTTP strategies")
  else if env.altPaths || env.jsVars || env.mobileContent || env.mobileExtraction then
    some (setMethod initRes "Phase 3: Deep HTTP investigation")
  else if containsStr (lowerString bioLink) "xli.ink" then
    -- `_handle_dynamic_content`: recursive re-invocation of the pipeline
    match recur with
    | none => none
    | some none => none
    | some (some _) => some (setMethod initRes "Phase 3: Deep HTTP investigation")
  else
    some (addDebug (addDebug initRes
      "Not an xli.ink link, skipping dynamic content handling.")
      "All phases completed - no OnlyFans found")

/-- The enhanced pipeline with an explicit recursion budget. -/
def enhDetect (env : EnhEnv) : Nat → String → Option DetRes
  | 0, link => enhDetectCore env link none
  | n + 1, link => enhDetectCore env link (some (enhDetect env n link))

/-- Environment in which every HTTP probe of the enhanced detector fails
(e.g. the target answers 200 with no OnlyFans evidence anywhere). -/
def enhAllFailEnv : EnhEnv :=
  { phase1 := false, phase2 := false, altPaths := false, jsVars := false,
    mobileContent := false, mobileExtraction := false }

/-- C5 — the enhanced pipeline does NOT terminate on the special-cased
domain: for an `xli.ink` link on which every HTTP probe fails,
`_handle_dynamic_content` re-invokes the whole pipeline unboundedly, and the
detection exhausts every recursion budget; whereas a non-`xli.ink` link
(here a concrete one) terminates with no recursion budget at all. -/
theorem enhDetect_xli_nonterminating :
    (∀ fuel : Nat, enhDetect enhAllFailEnv fuel "https://xli.ink/user" = none) ∧
    (∀ (env : EnhEnv) (fuel : Nat),
      (enhDetect env fuel "https://linktr.ee/user").isSome = true) := by
  constructor
  · intro fuel
    induction fuel with
    | zero => rfl
    | succ n ih =>
      show enhDetectCore enhAllFailEnv "https://xli.ink/user"
        (some (enhDetect enhAllFailEnv n "https://xli.ink/user")) = none
      rw [ih]
      rfl
  · intro env fuel
    have hcore : ∀ recur, (enhDetectCore env "https://linktr.ee/user" recur).isSome = true := by
      intro recur
      unfold enhDetectCore
      have hx : containsStr (lowerString "https://linktr.ee/user") "xli.ink" = false := by
        decide
      split
      · rfl
      · split
        · rfl
        · split
          · rfl
          · rw [if_neg (by simp [hx])]
            rfl
    cases fuel with
    | zero => exact hcore none
    | succ n => exact hcore (some (enhDetect env n "https://linktr.ee/user"))

/-! ## The hybrid pipeline: `HybridFinalDetector.detect_onlyfans`
(`onlyfans_detector_hybrid_final.py`)

Each phase body is translated with its fetches and rendered page data
supplied by an environment; regex pattern hits other than the main OnlyFans
URL regex (the four patterns of `_enhanced_link_extraction`) are likewise
environment inputs, since only the guards and assignments acting on them
matter to the claims.

The `while` loop of `_handle_redirects_better` (lines 403–437) does not
always make progress: on a 3xx response without a `location` header, and on
any status that is neither a redirect nor 200, the original `else: break`
was replaced by `elif self.results.get("age_verification_detected", False):
break`, and that key is unset while phase 2 runs (its only assignment is
line 723, inside phase 3.5, which comes after phase 2 in the same call, and
`self.results` is reset at the start of every call); the loop then repeats
the identical iteration forever.  The model returns `none` for those
diverging runs. -/

/-- Phase-2 strategy 1, `_handle_redirects_better` (lines 395–442): the
manual redirect loop, recursing on the remaining iterations of
`while redirect_count < max_redirects`.  `none` = the loop never exits. -/
def redirectsLoop (fetchR : String → Except String Resp) :
    Nat → String → DetRes → Option (Bool × DetRes)
  | 0, _, r => some (false, r)
  | n + 1, current, r =>
    match fetchR current with
    | .error e => some (false, addErr r ("Redirect handling failed: " ++ e))
    | .ok resp =>
      if isRedirectStatus resp.status then
        match resp.location with
        | some loc =>
          let next :=
            if startsWithSlash loc then urljoinSlash current loc
            else if startsWithHttp loc then loc
            else if ageFlag r then urljoinSlash current loc
            else current
          redirectsLoop fetchR n next
            (addDebug r ("Redirect " ++ toString (5 - n) ++ ": " ++ next))
        | none =>
          if ageFlag r then some (false, r) else none
      else if resp.status = 200 then
        let ofUrls := ofUrlFindall (lowerString resp.text)
        if ofUrls ≠ [] then
          some (true, addDebug (setFound r (dedupS ofUrls)) "Found OnlyFans after redirects")
        else some (false, r)
      else
        if ageFlag r then some (false, r) else none

/-- `_handle_redirects_better(bio_link)` with `max_redirects = 5`. -/
def handleRedirectsBetter (fetchR : String → Except String Resp)
    (bioLink : String) (r : DetRes) : Option (Bool × DetRes) :=
  redirectsLoop fetchR 5 bioLink r

/-- Phase-2 strategy 2, `_try_different_user_agents` (lines 444–476): the
loop over the four user agents; a per-agent exception is swallowed by
`except: continue`. -/
def tryUAAux (fetchUA : Nat → Except String Resp) :
    List Nat → DetRes → Bool × DetRes
  | [], r => (false, r)
  | i :: is, r =>
    match fetchUA i with
    | .error _ => tryUAAux fetchUA is r
    | .ok resp =>
      if resp.status = 200 then
        let ofUrls := ofUrlFindall (lowerString resp.text)
        if ofUrls ≠ [] then
          (true, addDebug (setFound r (dedupS ofUrls)) "Found OnlyFans with User-Agent")
        else tryUAAux fetchUA is r
      else tryUAAux fetchUA is r

/-- `_try_different_user_agents(bio_link)`. -/
def tryDifferentUserAgents (fetchUA : Nat → Except String Resp) (r : DetRes) :
    Bool × DetRes :=
  tryUAAux fetchUA [0, 1, 2, 3] r

/-- Characters matched by the username group `([a-zA-Z0-9_-]+)`. -/
def isUserChar (c : Char) : Bool :=
  (decide ('a' ≤ c) && decide (c ≤ 'z')) ||
  (decide ('A' ≤ c) && decide (c ≤ 'Z')) ||
  (decide ('0' ≤ c) && decide (c ≤ '9')) || c == '_' || c == '-'

/-- `re.search(r'onlyfans\.com/([a-zA-Z0-9_-]+)', m, re.IGNORECASE)`:
the first position bearing `onlyfans.com/` followed by a non-empty
username run, returning the group. -/
def usernameSearch : List Char → Option (List Char)
  | [] => none
  | s@(_ :: cs) =>
    if "onlyfans.com/".data.isPrefixOf (s.map lowerChar) then
      let run := (s.drop 13).takeWhile isUserChar
      if run ≠ [] then some run else usernameSearch cs
    else usernameSearch cs

/-- The `for match in matches` body of `_enhanced_link_extraction`
(lines 499–511): the `elif` guarding the username fallback is the mutated
flag test of line 506. -/
def cleanFromMatch (flag : Bool) (m : String) : List String :=
  if containsStr (lowerString m) "onlyfans" then
    let us := ofUrlFindall m
    if us ≠ [] then us
    else if flag then
      match usernameSearch m.data with
      | some run => ["https://onlyfans.com/" ++ String.mk run]
      | none => []
    else []
  else []

/-- The `for pattern in patterns` loop of `_enhanced_link_extraction`
(lines 495–517); `pm i` is what `re.findall(patterns[i], content)`
returned. -/
def enhancedPatternLoop (pm : Nat → List String) (flag : Bool) :
    List Nat → DetRes → Bool × DetRes
  | [], r => (false, r)
  | i :: is, r =>
    let ms := pm i
    if ms ≠ [] then
      let clean := ms.flatMap (cleanFromMatch flag)
      if clean ≠ [] then
        (true, addDebug (setFound r (dedupS clean)) "Found OnlyFans with pattern")
      else enhancedPatternLoop pm flag is r
    else enhancedPatternLoop pm flag is r

/-- Phase-2 strategy 3, `_enhanced_link_extraction` (lines 478–522). -/
def enhancedLinkExtraction (fetch : Except String Resp)
    (pm : Nat → List String) (r : DetRes) : Bool × DetRes :=
  match fetch with
  | .error e => (false, addErr r ("Enhanced link extraction failed: " ++ e))
  | .ok resp =>
    if resp.status = 200 then enhancedPatternLoop pm (ageFlag r) [0, 1, 2, 3] r
    else (false, r)

/-- `_phase2_enhanced_detection` (lines 186–204): the three strategies in
order, stopping at the first success; only strategy 1 can diverge. -/
def phase2 (fetchR : String → Except String Resp)
    (fetchUA : Nat → Except String Resp) (fetch2c : Except String Resp)
    (pm : Nat → List String) (bioLink : String) (r : DetRes) :
    Option (Bool × DetRes) :=
  match handleRedirectsBetter fetchR bioLink r with
  | none => none
  | some (true, r) => some (true, r)
  | some (false, r) =>
    match tryDifferentUserAgents fetchUA r with
    | (true, r) => some (true, r)
    | (false, r) => some (enhancedLinkExtraction fetch2c pm r)

/-! ### Phase 3: interactive detection (`_phase3_interactive_detection`)

The Playwright sessions are abstracted to the data the handlers read from
them: rendered page content, a captured 3xx `location`, the page URL after
the click path, and element texts.  The control flow acting on that data is
from the source. -/

/-- What `_handle_linkme_interactive` (lines 524–657) observes from its
browser session. -/
structure LinkmeData where
  pageContent : String
  redirectLocation : Option String
  finalUrl : String
  containerFound : Bool
  elementTexts : List String
deriving Repr, DecidableEq, Inhabited

/-- The `handle_response` capture (lines 537–543): keep a 3xx `location`
that names `onlyfans.com` and has no `/files` segment. -/
def linkmeCaptured (d : LinkmeData) : Option String :=
  match d.redirectLocation with
  | some loc =>
    if containsStr (lowerString loc) "onlyfans.com" && !containsStr loc "/files" then
      some loc
    else none
  | none => none

/-- `onlyfans_found` after the container-click path (lines 581–623): the
page URL if it reached `onlyfans.com`, else any captured redirect. -/
def linkmeClickResult (d : LinkmeData) : Option String :=
  if containsStr (lowerString d.finalUrl) "onlyfans.com" then some d.finalUrl
  else linkmeCaptured d

/-- The element-text extraction loop (lines 626–649): first element text
mentioning OnlyFans whose URL scan is non-empty. -/
def firstTextUrls : List String → Option (List String)
  | [] => none
  | t :: ts =>
    if containsStr (lowerString t) "onlyfans" then
      let us := ofUrlFindall t
      if us ≠ [] then some us else firstTextUrls ts
    else firstTextUrls ts

/-- `_handle_linkme_interactive`. -/
def handleLinkmeInteractive (sess : Except String LinkmeData) (r : DetRes) :
    Bool × DetRes :=
  match sess with
  | .error e => (false, addErr r ("Link.me interactive detection failed: " ++ e))
  | .ok d =>
    let r := addDebug r "Loading link.me page..."
    let us := ofUrlFindall d.pageContent
    if us ≠ [] then
      (true, addDebug (setFound r (dedupS us)) "Found OnlyFans URLs directly in page content")
    else if containsStr (lowerString d.pageContent) "onlyfans" then
      (true, addDebug (setFound r ["https://onlyfans.com/detected"]) "OnlyFans detected in page content")
    else if d.containerFound then
      match linkmeClickResult d with
      | some u => (true, setFound r [u])
      | none =>
        match firstTextUrls d.elementTexts with
        | some us2 => (true, addDebug (setFound r (dedupS us2)) "Found OnlyFans URLs in text elements")
        | none => (false, r)
    else
      match firstTextUrls d.elementTexts with
      | some us2 => (true, addDebug (setFound r (dedupS us2)) "Found OnlyFans URLs in text elements")
      | none => (false, r)

/-- What `_handle_beacons_interactive` (lines 850–987) observes: the page
content before and after the aggressive scrolling. -/
structure BeaconsData where
  content1 : String
  content2 : String
deriving Repr, DecidableEq, Inhabited

/-- `_handle_beacons_interactive`. -/
def handleBeaconsInteractive (sess : Except String BeaconsData) (r : DetRes) :
    Bool × DetRes :=
  match sess with
  | .error e => (false, addErr r ("Beacons.ai interactive detection failed: " ++ e))
  | .ok d =>
    if containsStr (lowerString d.content1) "onlyfans" then
      (true, addDebug (setFound r ["https://onlyfans.com/detected"]) "OnlyFans detected in beacons.ai content")
    else
      let r := addDebug r "No OnlyFans found, trying more aggressive human-like behavior..."
      if containsStr (lowerString d.content2) "onlyfans" then
        (true, addDebug (setFound r ["https://onlyfans.com/detected"]) "OnlyFans detected after aggressive behavior")
      else (false, r)

/-- The approach loop of `_handle_beacons_alternative` (lines 1030–1055);
the no-branch `elif` on the flag at line 1050 is kept as in the source. -/
def beaconsAltLoop (fetchAlt : Nat → Except String Resp) :
    List Nat → DetRes → Bool × DetRes
  | [], r => (false, r)
  | i :: is, r =>
    let r := addDebug r ("Alternative approach " ++ toString i ++ " for beacons.ai...")
    match fetchAlt i with
    | .error _ =>
      beaconsAltLoop fetchAlt is (addDebug r ("Alternative approach " ++ toString i ++ " failed"))
    | .ok resp =>
      if resp.status = 200 then
        if containsStr (lowerString resp.text) "onlyfans" then
          (true, addDebug (setFound r ["https://onlyfans.com/detected"])
            ("Alternative approach " ++ toString i ++ " succeeded!"))
        else beaconsAltLoop fetchAlt is r
      else if resp.status = 403 then
        beaconsAltLoop fetchAlt is (addDebug r ("Alternative approach " ++ toString i ++ " blocked (403)"))
      else
        beaconsAltLoop fetchAlt is
          (if ageFlag r then addDebug r ("Alternative approach " ++ toString i ++ " status") else r)

/-- `_handle_beacons_alternative` (lines 989–1060). -/
def handleBeaconsAlternative (fetchAlt : Nat → Except String Resp) (r : DetRes) :
    Bool × DetRes :=
  beaconsAltLoop fetchAlt [1, 2, 3] (addDebug r "Trying alternative approach for beacons.ai...")

/-- Rendered page content for the xli.ink and generic handlers. -/
structure PageData where
  pageContent : String
deriving Repr, DecidableEq, Inhabited

/-- `_handle_xli_interactive` (lines 1062–1103). -/
def handleXliInteractive (sess : Except String PageData) (r : DetRes) :
    Bool × DetRes :=
  match sess with
  | .error e => (false, addErr r ("Xli.ink interactive detection failed: " ++ e))
  | .ok d =>
    let r := addDebug r "Loading xli.ink page..."
    let us := ofUrlFindall d.pageContent
    if us ≠ [] then (true, setFound r (dedupS us))
    else if containsStr (lowerString d.pageContent) "onlyfans" then
      (true, addDebug (setFound r ["https://onlyfans.com/detected"]) "OnlyFans detected in xli.ink content")
    else (false, r)

/-- `_generic_interactive_detection` (lines 1105–1138). -/
def genericInteractiveDetection (sess : Except String PageData) (r : DetRes) :
    Bool × DetRes :=
  match sess with
  | .error e => (false, addErr r ("Generic interactive detection failed: " ++ e))
  | .ok d =>
    let r := addDebug r "Generic interactive detection..."
    let us := ofUrlFindall d.pageContent
    if us ≠ [] then (true, setFound r (dedupS us))
    else (false, r)

/-- `_phase3_interactive_detection` (lines 206–237).  The dispatch for a
host that is neither link.me, beacons.ai nor xli.ink is guarded by the
mutated `elif self.results.get("age_verification_detected", False)` of
line 231, so with the flag unset no handler runs and the phase returns
`False`. -/
def phase3 (linkme : Except String LinkmeData) (beacons : Except String BeaconsData)
    (fetchAlt : Nat → Except String Resp) (xli generic : Except String PageData)
    (bioLink : String) (r : DetRes) : Bool × DetRes :=
  if containsStr (lowerString bioLink) "link.me" then handleLinkmeInteractive linkme r
  else if containsStr (lowerString bioLink) "beacons.ai" then
    match handleBeaconsInteractive beacons r with
    | (true, r) => (true, r)
    | (false, r) =>
      handleBeaconsAlternative fetchAlt
        (addDebug r "Interactive approach failed, trying alternative method...")
  else if containsStr (lowerString bioLink) "xli.ink" then handleXliInteractive xli r
  else if ageFlag r then genericInteractiveDetection generic r
  else (false, r)

/-! ### Phase 3.5: `_handle_linkme_fallback` (lines 659–848)

In strategy 1's 200-branch, the mutated indicator loop (see C8) forces
`age_verification_found = True`, so the `or` chain at line 720
short-circuits before reaching the undefined names `js_age_found` … — no
exception fires there — and line 723 sets
`self.results["age_verification_detected"] = True`.  The 200-branch then
either succeeds on an `onlyfans` mention (lines 753–770: the regex hits,
deduplicated, or the literal `/detected` URL) or logs through the line-771
`elif` (now true) and falls through to strategies 2 and 3.  Those succeed
on a 200 whose body mentions `onlyfans` or matches the `any(...)`
age-verification test (lines 801–805, 829–833) — but they can only
evaluate that test when strategy 1's 200-branch ran, because
`age_verification_indicators` is bound there (line 698); otherwise lines
798/826 raise a `NameError`, caught by the function's `except` (line 844),
recorded in `errors`, and the function returns `False`.  The model passes
that binding state explicitly.  Debug-only appends with no control-flow
effect (response length, content type, indicator list, HTML preview, the
pattern-logging loop of lines 747–750) are omitted; the `NameError`
message is abbreviated without its quote characters, and the line-773
`elif` is dead code (same condition as line 771) and not modelled. -/

/-- `self.results["age_verification_detected"] = True` (line 723; the local
`age_verification_detected` of line 720 is `True` because the always-true
`age_verification_found` short-circuits the `or`). -/
def setAgeFlag (r : DetRes) : DetRes :=
  { r with age_verification_detected := some true }

/-- Message recorded when line 798 or 826 raises (only reachable when
strategy 1's 200-branch did not run). -/
def lmNameError2 : String :=
  "Link.me fallback detection failed: NameError: age_verification_indicators is not defined"

/-- Strategy 3 of `_handle_linkme_fallback` (lines 814–842); `bound` is
whether `age_verification_indicators` was bound by strategy 1's
200-branch. -/
def linkmeStrategy3 (fetchLm : Nat → Except String Resp) (bound : Bool)
    (r : DetRes) : Bool × DetRes :=
  let r := addDebug r "Trying different referrer approach..."
  match fetchLm 3 with
  | .error e =>
    (false, addDebug (addErr r ("Link.me fallback detection failed: " ++ e)) "=== END DEBUG ===")
  | .ok resp3 =>
    if resp3.status = 200 then
      let rhas := containsStr (lowerString resp3.text) "onlyfans"
      let r := addDebug r ("Referrer approach - Contains onlyfans: " ++ toString rhas)
      if bound then
        let rage := ageVerificationAny resp3.text
        let r := addDebug r ("Referrer approach - Age verification detected: " ++ toString rage)
        if rhas || rage then
          (true, addDebug (setFound r ["https://onlyfans.com/detected"]) "=== END DEBUG ===")
        else (false, addDebug r "=== END DEBUG ===")
      else
        (false, addDebug (addErr r lmNameError2) "=== END DEBUG ===")
    else (false, addDebug r "=== END DEBUG ===")

/-- Strategies 2 and 3 of `_handle_linkme_fallback` (lines 782–842). -/
def linkmeStrategy23 (fetchLm : Nat → Except String Resp) (bound : Bool)
    (r : DetRes) : Bool × DetRes :=
  let r := addDebug r "Trying mobile user agent approach..."
  match fetchLm 2 with
  | .error e =>
    (false, addDebug (addErr r ("Link.me fallback detection failed: " ++ e)) "=== END DEBUG ===")
  | .ok resp2 =>
    if resp2.status = 200 then
      let mhas := containsStr (lowerString resp2.text) "onlyfans"
      let r := addDebug r ("Mobile approach - Contains onlyfans: " ++ toString mhas)
      if bound then
        let mage := ageVerificationAny resp2.text
        let r := addDebug r ("Mobile approach - Age verification detected: " ++ toString mage)
        if mhas || mage then
          (true, addDebug (setFound r ["https://onlyfans.com/detected"]) "=== END DEBUG ===")
        else linkmeStrategy3 fetchLm bound r
      else
        (false, addDebug (addErr r lmNameError2) "=== END DEBUG ===")
    else linkmeStrategy3 fetchLm bound r

/-- `_handle_linkme_fallback`; `fetchLm i` is the fetch of strategy `i`. -/
def handleLinkmeFallback (fetchLm : Nat → Except String Resp)
    (bioLink : String) (r : DetRes) : Bool × DetRes :=
  let r := addDebug r ("=== DEBUGGING " ++ bioLink ++ " ===")
  match fetchLm 1 with
  | .error e =>
    (false, addDebug (addErr r ("Link.me fallback detection failed: " ++ e)) "=== END DEBUG ===")
  | .ok resp1 =>
    let r := addDebug r ("Response status: " ++ toString resp1.status)
    if resp1.status = 200 then
      let hasMention := containsStr (lowerString resp1.text) "onlyfans"
      let r := addDebug r ("Contains onlyfans: " ++ toString hasMention)
      let r := addDebug r
        ("Age verification indicators found: " ++ toString (ageGateLoop resp1.text).1)
      let r := setAgeFlag r
      if hasMention then
        let r := addDebug r "OnlyFans found in link.me content via fallback"
        let us := ofUrlFindall resp1.text
        if us ≠ [] then
          (true, addDebug (addDebug (setFound r (dedupS us))
            "Found OnlyFans URLs in link.me fallback") "=== END DEBUG ===")
        else
          (true, addDebug (addDebug (setFound r ["https://onlyfans.com/detected"])
            "OnlyFans confirmed in link.me via fallback") "=== END DEBUG ===")
      else
        -- the line-771 `elif` fires (the flag was just set) and only logs
        let r := addDebug r "No OnlyFans mention found in content"
        linkmeStrategy23 fetchLm true r
    else
      linkmeStrategy23 fetchLm false r

/-! ### Phases 4 and 5 -/

/-- The approach loop of `_final_fallback_extraction` (lines 239–292);
per-approach exceptions are swallowed by `except: continue` (line 286). -/
def finalFallbackAux (fetch4 : Nat → Except String Resp) :
    List Nat → DetRes → Bool × DetRes
  | [], r => (false, r)
  | i :: is, r =>
    match fetch4 i with
    | .error _ => finalFallbackAux fetch4 is r
    | .ok resp =>
      if resp.status = 200 then
        if containsStr (lowerString resp.text) "onlyfans" then
          let r := addDebug r ("OnlyFans found in approach " ++ toString i ++ ", extracting...")
          let ofUrls := ofUrlFindall resp.text
          if ofUrls ≠ [] then
            (true, addDebug (setFound r (dedupS ofUrls)) "Found OnlyFans URLs in fallback extraction")
          else
            (true, addDebug (setFound r ["https://onlyfans.com/detected"]) "OnlyFans confirmed to exist in content")
        else finalFallbackAux fetch4 is r
      else finalFallbackAux fetch4 is r

/-- `_final_fallback_extraction(bio_link)`: two header variants. -/
def finalFallbackExtraction (fetch4 : Nat → Except String Resp) (r : DetRes) :
    Bool × DetRes :=
  finalFallbackAux fetch4 [0, 1] r

/-- The approach loop of `_desperate_mode_extraction` (lines 326–393);
a failing approach records a debug note and continues; the no-branch
`elif` on the flag at line 383 is kept as in the source. -/
def desperateAux (fetch5 : Nat → Except String Resp) :
    List Nat → DetRes → Bool × DetRes
  | [], r => (false, r)
  | i :: is, r =>
    let r := addDebug r ("Desperate approach " ++ toString i)
    match fetch5 i with
    | .error _ => desperateAux fetch5 is (addDebug r ("Approach " ++ toString i ++ " failed"))
    | .ok resp =>
      if resp.status = 200 then
        if containsStr (lowerString resp.text) "onlyfans" then
          let r := addDebug r ("OnlyFans found in approach " ++ toString i ++ ", extracting...")
          let ofUrls := ofUrlFindall resp.text
          if ofUrls ≠ [] then
            (true, addDebug (setFound r (dedupS ofUrls)) "Found OnlyFans URLs in desperate mode")
          else
            (true, addDebug (setFound r ["https://onlyfans.com/detected"]) "OnlyFans confirmed to exist in desperate mode")
        else desperateAux fetch5 is r
      else if resp.status = 403 then
        desperateAux fetch5 is (addDebug r ("Approach " ++ toString i ++ " blocked (403)"))
      else
        desperateAux fetch5 is
          (if ageFlag r then addDebug r ("Approach " ++ toString i ++ " status") else r)

/-- `_desperate_mode_extraction(bio_link)`: three approaches. -/
def desperateModeExtraction (fetch5 : Nat → Except String Resp) (r : DetRes) :
    Bool × DetRes :=
  desperateAux fetch5 [1, 2, 3] (addDebug r "Desperate mode: Trying aggressive extraction...")

/-! ### The scheduler -/

/-- The environment of one detection call: the target URL, Playwright
availability, and the outcome of every I/O interaction a phase may
perform. -/
structure Env where
  playwright : Bool
  bioLink : String
  fetch1 : Except String Resp
  fetchR : String → Except String Resp
  fetchUA : Nat → Except String Resp
  fetch2c : Except String Resp
  patternHits : Nat → List String
  linkme : Except String LinkmeData
  beacons : Except String BeaconsData
  beaconsAlt : Nat → Except String Resp
  xli : Except String PageData
  generic : Except String PageData
  fetchLm : Nat → Except String Resp
  fetch4 : Nat → Except String Resp
  fetch5 : Nat → Except String Resp

/-- Identifier of a pipeline phase, in priority order. -/
inductive PhaseTag where
  | p1 | p2 | p3 | p35 | p4 | p5
deriving Repr, DecidableEq, Inhabited

/-- The position of a phase in the priority order. -/
def PhaseTag.idx : PhaseTag → Nat
  | .p1 => 1
  | .p2 => 2
  | .p3 => 3
  | .p35 => 4
  | .p4 => 5
  | .p5 => 6

/-- The `detection_method` string the scheduler assigns to each phase. -/
def phaseLabel : PhaseTag → String
  | .p1 => "Phase 1: Direct HTTP detection"
  | .p2 => "Phase 2: Enhanced HTTP strategies"
  | .p3 => "Phase 3: Interactive Playwright detection"
  | .p35 => "Phase 3.5: Special link.me fallback"
  | .p4 => "Phase 4: Final fallback extraction"
  | .p5 => "Phase 5: Desperate mode extraction"

/-- A record of the phases the scheduler attempted, with their outcomes. -/
abbrev Trace := List (PhaseTag × Bool)

/-- Phases 4 then 5 (the tail of `detect_onlyfans`, lines 146–159). -/
def runPhase45 (env : Env) (t : Trace) (r : DetRes) : DetRes × Trace :=
  let r := addDebug r "Phase 4: Final fallback extraction"
  match finalFallbackExtraction env.fetch4 r with
  | (true, r) => (setMethod r (phaseLabel .p4), t ++ [(.p4, true)])
  | (false, r) =>
    let r := addDebug r "Phase 5: Desperate mode extraction"
    match desperateModeExtraction env.fetch5 r with
    | (true, r) => (setMethod r (phaseLabel .p5), t ++ [(.p4, false), (.p5, true)])
    | (false, r) =>
      (addDebug r "All phases completed - no OnlyFans found",
       t ++ [(.p4, false), (.p5, false)])

/-- Phase 3.5 — only for link.me targets (lines 139–144) — then 4 and 5. -/
def runPhase35 (env : Env) (t : Trace) (r : DetRes) : DetRes × Trace :=
  if containsStr (lowerString env.bioLink) "link.me" then
    let r := addDebug r "Phase 3.5: Special link.me fallback detection"
    match handleLinkmeFallback env.fetchLm env.bioLink r with
    | (true, r) => (setMethod r (phaseLabel .p35), t ++ [(.p35, true)])
    | (false, r) => runPhase45 env (t ++ [(.p35, false)]) r
  else runPhase45 env t r

/-- Phase 3 — only when Playwright is available (lines 130–137; in the
unavailable branch the skip diagnostic of line 137 sits behind the mutated
`elif` on `age_verification_detected` of line 136) — then 3.5, 4, 5. -/
def runPhase3 (env : Env) (t : Trace) (r : DetRes) : DetRes × Trace :=
  if env.playwright then
    let r := addDebug r "Phase 3: Interactive detection with Playwright"
    match phase3 env.linkme env.beacons env.beaconsAlt env.xli env.generic env.bioLink r with
    | (true, r) => (setMethod r (phaseLabel .p3), t ++ [(.p3, true)])
    | (false, r) => runPhase35 env (t ++ [(.p3, false)]) r
  else
    let r := if ageFlag r then addDebug r "Phase 3: Skipped (Playwright not available)" else r
    runPhase35 env t r

/-- `HybridFinalDetector.detect_onlyfans` (lines 107–164): the phase
scheduler, paired with the trace of attempted phases.  `none` = the call
never returns (the phase-2 redirect loop diverged). -/
def detectOnlyfans (env : Env) : Option (DetRes × Trace) :=
  let r := addDebug initRes "Phase 1: Fast HTTP detection"
  match phase1 env.fetch1 r with
  | (true, r) => some (setMethod r (phaseLabel .p1), [(.p1, true)])
  | (false, r) =>
    let r := addDebug r "Phase 2: Enhanced HTTP detection"
    match phase2 env.fetchR env.fetchUA env.fetch2c env.patternHits env.bioLink r with
    | none => none
    | some (true, r) => some (setMethod r (phaseLabel .p2), [(.p1, false), (.p2, true)])
    | some (false, r) => some (runPhase3 env [(.p1, false), (.p2, false)] r)

/-! ### Result-evolution lemmas

`Step r r'` records what every phase body guarantees about how it evolves
the results dict: it never touches `detection_method`, never removes an
`errors` entry, and preserves the evidence invariant
`has_onlyfans = true → onlyfans_urls ≠ []`. -/

/-- The C9 evidence invariant on a results dict. -/
def EvUrls (r : DetRes) : Prop := r.has_onlyfans = true → r.onlyfans_urls ≠ []

/-- How a phase body may evolve the results dict. -/
def Step (r r' : DetRes) : Prop :=
  r'.detection_method = r.detection_method ∧
  (∀ m ∈ r.errors, m ∈ r'.errors) ∧
  (EvUrls r → EvUrls r')

theorem step_refl {r : DetRes} : Step r r :=
  ⟨rfl, fun _ hm => hm, fun h => h⟩

theorem step_trans {r s t : DetRes} (h1 : Step r s) (h2 : Step s t) : Step r t :=
  ⟨h2.1.trans h1.1, fun m hm => h2.2.1 m (h1.2.1 m hm), fun h => h2.2.2 (h1.2.2 h)⟩

theorem step_addDebug {r : DetRes} {m : String} : Step r (addDebug r m) :=
  ⟨rfl, fun _ hm => hm, fun h => h⟩

theorem step_addErr {r : DetRes} {m : String} : Step r (addErr r m) :=
  ⟨rfl, fun x hx => by simp [addErr, hx], fun h => h⟩

theorem step_setFound {r : DetRes} {us : List String} (h : us ≠ []) :
    Step r (setFound r us) :=
  ⟨rfl, fun _ hm => hm, fun _ _ => h⟩

theorem phase1_step (fetch : Except String Resp) (r : DetRes) :
    Step r (phase1 fetch r).2 := by
  cases fetch with
  | error e => exact step_addErr
  | ok resp =>
    simp only [phase1]
    by_cases h : resp.status = 200
    · rw [if_pos h]
      by_cases hne : ofUrlFindall (lowerString resp.text) ≠ []
      · rw [if_pos hne]
        exact step_setFound (dedupS_ne_nil hne)
      · rw [if_neg hne]
        exact step_refl
    · rw [if_neg h]
      exact step_refl

theorem redirectsLoop_step (fetchR : String → Except String Resp) :
    ∀ (n : Nat) (current : String) (r : DetRes) (b : Bool) (r' : DetRes),
      redirectsLoop fetchR n current r = some (b, r') → Step r r' := by
  intro n
  induction n with
  | zero =>
    intro current r b r' h
    simp only [redirectsLoop] at h
    obtain ⟨rfl, rfl⟩ : false = b ∧ r = r' := by
      simpa using h
    exact step_refl
  | succ k ih =>
    intro current r b r' h
    simp only [redirectsLoop] at h
    rcases hf : fetchR current with e | resp
    · simp only [hf] at h
      obtain ⟨rfl, rfl⟩ : false = b ∧ addErr r ("Redirect handling failed: " ++ e) = r' := by
        simpa using h
      exact step_addErr
    · simp only [hf] at h
      by_cases hst : isRedirectStatus resp.status = true
      · rw [if_pos hst] at h
        rcases hloc : resp.location with _ | loc
        · simp only [hloc] at h
          by_cases hfl : ageFlag r = true
          · rw [if_pos hfl] at h
            obtain ⟨rfl, rfl⟩ : false = b ∧ r = r' := by simpa using h
            exact step_refl
          · rw [if_neg hfl] at h
            simp at h
        · simp only [hloc] at h
          exact step_trans step_addDebug (ih _ _ _ _ h)
      · rw [if_neg hst] at h
        by_cases h200 : resp.status = 200
        · rw [if_pos h200] at h
          by_cases hne : ofUrlFindall (lowerString resp.text) ≠ []
          · rw [if_pos hne] at h
            obtain ⟨rfl, rfl⟩ :
                true = b ∧ addDebug (setFound r (dedupS (ofUrlFindall (lowerString resp.text))))
                  "Found OnlyFans after redirects" = r' := by simpa using h
            exact step_trans (step_setFound (dedupS_ne_nil hne)) step_addDebug
          · rw [if_neg hne] at h
            obtain ⟨rfl, rfl⟩ : false = b ∧ r = r' := by simpa using h
            exact step_refl
        · rw [if_neg h200] at h
          by_cases hfl : ageFlag r = true
          · rw [if_pos hfl] at h
            obtain ⟨rfl, rfl⟩ : false = b ∧ r = r' := by simpa using h
            exact step_refl
          · rw [if_neg hfl] at h
            simp at h

theorem tryUAAux_step (fetchUA : Nat → Except String Resp) :
    ∀ (l : List Nat) (r : DetRes), Step r (tryUAAux fetchUA l r).2 := by
  intro l
  induction l with
  | nil => intro r; exact step_refl
  | cons i is ih =>
    intro r
    rcases hua : fetchUA i with e | resp
    · simp only [tryUAAux, hua]
      exact ih r
    · simp only [tryUAAux, hua]
      by_cases h : resp.status = 200
      · rw [if_pos h]
        by_cases hne : ofUrlFindall (lowerString resp.text) ≠ []
        · rw [if_pos hne]
          exact step_trans (step_setFound (dedupS_ne_nil hne)) step_addDebug
        · rw [if_neg hne]
          exact ih r
      · rw [if_neg h]
        exact ih r

theorem enhancedPatternLoop_step (pm : Nat → List String) (flag : Bool) :
    ∀ (l : List Nat) (r : DetRes), Step r (enhancedPatternLoop pm flag l r).2 := by
  intro l
  induction l with
  | nil => intro r; exact step_refl
  | cons i is ih =>
    intro r
    simp only [enhancedPatternLoop]
    by_cases hm : pm i ≠ []
    · rw [if_pos hm]
      by_cases hc : (pm i).flatMap (cleanFromMatch flag) ≠ []
      · rw [if_pos hc]
        exact step_trans (step_setFound (dedupS_ne_nil hc)) step_addDebug
      · rw [if_neg hc]
        exact ih r
    · rw [if_neg hm]
      exact ih r

theorem enhancedLinkExtraction_step (fetch : Except String Resp)
    (pm : Nat → List String) (r : DetRes) :
    Step r (enhancedLinkExtraction fetch pm r).2 := by
  cases fetch with
  | error e => exact step_addErr
  | ok resp =>
    simp only [enhancedLinkExtraction]
    by_cases h : resp.status = 200
    · rw [if_pos h]
      exact enhancedPatternLoop_step pm (ageFlag r) [0, 1, 2, 3] r
    · rw [if_neg h]
      exact step_refl

theorem phase2_step (fetchR : String → Except String Resp)
    (fetchUA : Nat → Except String Resp) (fetch2c : Except String Resp)
    (pm : Nat → List String) (bioLink : String) (r : DetRes)
    (b : Bool) (r' : DetRes)
    (h : phase2 fetchR fetchUA fetch2c pm bioLink r = some (b, r')) :
    Step r r' := by
  simp only [phase2] at h
  rcases h1 : handleRedirectsBetter fetchR bioLink r with _ | ⟨b1, r1⟩
  · simp [h1] at h
  · have hs1 : Step r r1 := redirectsLoop_step fetchR 5 bioLink r b1 r1 h1
    cases b1 with
    | true =>
      simp only [h1] at h
      obtain ⟨rfl, rfl⟩ : true = b ∧ r1 = r' := by simpa using h
      exact hs1
    | false =>
      simp only [h1] at h
      rcases h2 : tryDifferentUserAgents fetchUA r1 with ⟨b2, r2⟩
      have hs2 : Step r1 r2 := by
        have h3 := tryUAAux_step fetchUA [0, 1, 2, 3] r1
        rw [show tryUAAux fetchUA [0, 1, 2, 3] r1 = (b2, r2) from h2] at h3
        exact h3
      cases b2 with
      | true =>
        simp only [h2] at h
        obtain ⟨rfl, rfl⟩ : true = b ∧ r2 = r' := by simpa using h
        exact step_trans hs1 hs2
      | false =>
        simp only [h2] at h
        have he : enhancedLinkExtraction fetch2c pm r2 = (b, r') := by
          simpa using h
        have hs3 := enhancedLinkExtraction_step fetch2c pm r2
        rw [he] at hs3
        exact step_trans (step_trans hs1 hs2) hs3

theorem firstTextUrls_ne_nil :
    ∀ (ts : List String) (us : List String), firstTextUrls ts = some us → us ≠ [] := by
  intro ts
  induction ts with
  | nil => intro us h; simp [firstTextUrls] at h
  | cons t ts ih =>
    intro us h
    simp only [firstTextUrls] at h
    by_cases hc : containsStr (lowerString t) "onlyfans" = true
    · rw [if_pos hc] at h
      by_cases hne : ofUrlFindall t ≠ []
      · rw [if_pos hne] at h
        obtain rfl : ofUrlFindall t = us := by simpa using h
        exact hne
      · rw [if_neg hne] at h
        exact ih us h
    · rw [if_neg hc] at h
      exact ih us h

theorem handleLinkmeInteractive_step (sess : Except String LinkmeData) (r : DetRes) :
    Step r (handleLinkmeInteractive sess r).2 := by
  cases sess with
  | error e => exact step_addErr
  | ok d =>
    simp only [handleLinkmeInteractive]
    by_cases h1 : ofUrlFindall d.pageContent ≠ []
    · rw [if_pos h1]
      exact step_trans step_addDebug
        (step_trans (step_setFound (dedupS_ne_nil h1)) step_addDebug)
    · rw [if_neg h1]
      by_cases h2 : containsStr (lowerString d.pageContent) "onlyfans" = true
      · rw [if_pos h2]
        exact step_trans step_addDebug
          (step_trans (step_setFound (by simp)) step_addDebug)
      · rw [if_neg h2]
        by_cases h3 : d.containerFound = true
        · rw [if_pos h3]
          rcases hcr : linkmeClickResult d with _ | u
          · simp only [hcr]
            rcases hft : firstTextUrls d.elementTexts with _ | us2
            · simp only [hft]
              exact step_addDebug
            · simp only [hft]
              exact step_trans step_addDebug
                (step_trans (step_setFound (dedupS_ne_nil (firstTextUrls_ne_nil _ _ hft))) step_addDebug)
          · simp only [hcr]
            exact step_trans step_addDebug (step_setFound (by simp))
        · rw [if_neg h3]
          rcases hft : firstTextUrls d.elementTexts with _ | us2
          · simp only [hft]
            exact step_addDebug
          · simp only [hft]
            exact step_trans step_addDebug
              (step_trans (step_setFound (dedupS_ne_nil (firstTextUrls_ne_nil _ _ hft))) step_addDebug)

theorem handleBeaconsInteractive_step (sess : Except String BeaconsData) (r : DetRes) :
    Step r (handleBeaconsInteractive sess r).2 := by
  cases sess with
  | error e => exact step_addErr
  | ok d =>
    simp only [handleBeaconsInteractive]
    by_cases h1 : containsStr (lowerString d.content1) "onlyfans" = true
    · rw [if_pos h1]
      exact step_trans (step_setFound (by simp)) step_addDebug
    · rw [if_neg h1]
      by_cases h2 : containsStr (lowerString d.content2) "onlyfans" = true
      · rw [if_pos h2]
        exact step_trans step_addDebug
          (step_trans (step_setFound (by simp)) step_addDebug)
      · rw [if_neg h2]
        exact step_addDebug

theorem beaconsAltLoop_step (fetchAlt : Nat → Except String Resp) :
    ∀ (l : List Nat) (r : DetRes), Step r (beaconsAltLoop fetchAlt l r).2 := by
  intro l
  induction l with
  | nil => intro r; exact step_refl
  | cons i is ih =>
    intro r
    rcases hfa : fetchAlt i with e | resp
    · simp only [beaconsAltLoop, hfa]
      exact step_trans step_addDebug (step_trans step_addDebug (ih _))
    · simp only [beaconsAltLoop, hfa]
      by_cases h200 : resp.status = 200
      · rw [if_pos h200]
        by_cases hc : containsStr (lowerString resp.text) "onlyfans" = true
        · rw [if_pos hc]
          exact step_trans step_addDebug
            (step_trans (step_setFound (by simp)) step_addDebug)
        · rw [if_neg hc]
          exact step_trans step_addDebug (ih _)
      · rw [if_neg h200]
        by_cases h403 : resp.status = 403
        · rw [if_pos h403]
          exact step_trans step_addDebug (step_trans step_addDebug (ih _))
        · rw [if_neg h403]
          refine step_trans ?_ (ih _)
          split
          · exact step_trans step_addDebug step_addDebug
          · exact step_addDebug

theorem handleBeaconsAlternative_step (fetchAlt : Nat → Except String Resp)
    (r : DetRes) : Step r (handleBeaconsAlternative fetchAlt r).2 :=
  step_trans step_addDebug (beaconsAltLoop_step fetchAlt [1, 2, 3] _)

theorem handleXliInteractive_step (sess : Except String PageData) (r : DetRes) :
    Step r (handleXliInteractive sess r).2 := by
  cases sess with
  | error e => exact step_addErr
  | ok d =>
    simp only [handleXliInteractive]
    by_cases h1 : ofUrlFindall d.pageContent ≠ []
    · rw [if_pos h1]
      exact step_trans step_addDebug (step_setFound (dedupS_ne_nil h1))
    · rw [if_neg h1]
      by_cases h2 : containsStr (lowerString d.pageContent) "onlyfans" = true
      · rw [if_pos h2]
        exact step_trans step_addDebug
          (step_trans (step_setFound (by simp)) step_addDebug)
      · rw [if_neg h2]
        exact step_addDebug

theorem genericInteractiveDetection_step (sess : Except String PageData) (r : DetRes) :
    Step r (genericInteractiveDetection sess r).2 := by
  cases sess with
  | error e => exact step_addErr
  | ok d =>
    simp only [genericInteractiveDetection]
    by_cases h1 : ofUrlFindall d.pageContent ≠ []
    · rw [if_pos h1]
      exact step_trans step_addDebug (step_setFound (dedupS_ne_nil h1))
    · rw [if_neg h1]
      exact step_addDebug

theorem phase3_step (linkme : Except String LinkmeData)
    (beacons : Except String BeaconsData) (fetchAlt : Nat → Except String Resp)
    (xli generic : Except String PageData) (bioLink : String) (r : DetRes) :
    Step r (phase3 linkme beacons fetchAlt xli generic bioLink r).2 := by
  simp only [phase3]
  by_cases h1 : containsStr (lowerString bioLink) "link.me" = true
  · rw [if_pos h1]
    exact handleLinkmeInteractive_step linkme r
  · rw [if_neg h1]
    by_cases h2 : containsStr (lowerString bioLink) "beacons.ai" = true
    · rw [if_pos h2]
      rcases hb : handleBeaconsInteractive beacons r with ⟨b, r1⟩
      have hsb : Step r r1 := by
        have := handleBeaconsInteractive_step beacons r
        rwa [hb] at this
      cases b with
      | true => simpa [hb] using hsb
      | false =>
        simp only [hb]
        exact step_trans hsb
          (step_trans step_addDebug (handleBeaconsAlternative_step fetchAlt _))
    · rw [if_neg h2]
      by_cases h3 : containsStr (lowerString bioLink) "xli.ink" = true
      · rw [if_pos h3]
        exact handleXliInteractive_step xli r
      · rw [if_neg h3]
        by_cases h4 : ageFlag r = true
        · rw [if_pos h4]
          exact genericInteractiveDetection_step generic r
        · rw [if_neg h4]
          exact step_refl

theorem step_setAgeFlag {r : DetRes} : Step r (setAgeFlag r) :=
  ⟨rfl, fun _ hm => hm, fun h => h⟩

theorem linkmeStrategy3_step (fetchLm : Nat → Except String Resp) (bound : Bool)
    (r : DetRes) : Step r (linkmeStrategy3 fetchLm bound r).2 := by
  simp only [linkmeStrategy3]
  split
  · exact step_trans step_addDebug (step_trans step_addErr step_addDebug)
  · split
    · split
      · split
        · exact step_trans step_addDebug (step_trans step_addDebug
            (step_trans step_addDebug (step_trans (step_setFound (by simp)) step_addDebug)))
        · exact step_trans step_addDebug (step_trans step_addDebug
            (step_trans step_addDebug step_addDebug))
      · exact step_trans step_addDebug (step_trans step_addDebug
          (step_trans step_addErr step_addDebug))
    · exact step_trans step_addDebug step_addDebug

theorem linkmeStrategy23_step (fetchLm : Nat → Except String Resp) (bound : Bool)
    (r : DetRes) : Step r (linkmeStrategy23 fetchLm bound r).2 := by
  simp only [linkmeStrategy23]
  split
  · exact step_trans step_addDebug (step_trans step_addErr step_addDebug)
  · split
    · split
      · split
        · exact step_trans step_addDebug (step_trans step_addDebug
            (step_trans step_addDebug (step_trans (step_setFound (by simp)) step_addDebug)))
        · exact step_trans step_addDebug (step_trans step_addDebug
            (step_trans step_addDebug (linkmeStrategy3_step fetchLm bound _)))
      · exact step_trans step_addDebug (step_trans step_addDebug
          (step_trans step_addErr step_addDebug))
    · exact step_trans step_addDebug (linkmeStrategy3_step fetchLm bound _)

/-- `_handle_linkme_fallback` evolves the results dict by debug/error
appends, the flag assignment, and guarded non-empty evidence
assignments. -/
theorem handleLinkmeFallback_step (fetchLm : Nat → Except String Resp)
    (bioLink : String) (r : DetRes) :
    Step r (handleLinkmeFallback fetchLm bioLink r).2 := by
  simp only [handleLinkmeFallback]
  split
  · exact step_trans step_addDebug (step_trans step_addErr step_addDebug)
  · split
    · split
      · split
        · exact step_trans step_addDebug (step_trans step_addDebug
            (step_trans step_addDebug (step_trans step_addDebug
              (step_trans step_setAgeFlag (step_trans step_addDebug
                (step_trans (step_setFound (dedupS_ne_nil (by assumption)))
                  (step_trans step_addDebug step_addDebug)))))))
        · exact step_trans step_addDebug (step_trans step_addDebug
            (step_trans step_addDebug (step_trans step_addDebug
              (step_trans step_setAgeFlag (step_trans step_addDebug
                (step_trans (step_setFound (by simp))
                  (step_trans step_addDebug step_addDebug)))))))
      · exact step_trans step_addDebug (step_trans step_addDebug
          (step_trans step_addDebug (step_trans step_addDebug
            (step_trans step_setAgeFlag (step_trans step_addDebug
              (linkmeStrategy23_step fetchLm true _))))))
    · exact step_trans step_addDebug (step_trans step_addDebug
        (linkmeStrategy23_step fetchLm false _))

theorem finalFallbackAux_step (fetch4 : Nat → Except String Resp) :
    ∀ (l : List Nat) (r : DetRes), Step r (finalFallbackAux fetch4 l r).2 := by
  intro l
  induction l with
  | nil => intro r; exact step_refl
  | cons i is ih =>
    intro r
    rcases hf : fetch4 i with e | resp
    · simp only [finalFallbackAux, hf]
      exact ih r
    · simp only [finalFallbackAux, hf]
      by_cases h200 : resp.status = 200
      · rw [if_pos h200]
        by_cases hc : containsStr (lowerString resp.text) "onlyfans" = true
        · rw [if_pos hc]
          by_cases hne : ofUrlFindall resp.text ≠ []
          · rw [if_pos hne]
            exact step_trans step_addDebug
              (step_trans (step_setFound (dedupS_ne_nil hne)) step_addDebug)
          · rw [if_neg hne]
            exact step_trans step_addDebug
              (step_trans (step_setFound (by simp)) step_addDebug)
        · rw [if_neg hc]
          exact ih r
      · rw [if_neg h200]
        exact ih r

theorem desperateAux_step (fetch5 : Nat → Except String Resp) :
    ∀ (l : List Nat) (r : DetRes), Step r (desperateAux fetch5 l r).2 := by
  intro l
  induction l with
  | nil => intro r; exact step_refl
  | cons i is ih =>
    intro r
    rcases hf : fetch5 i with e | resp
    · simp only [desperateAux, hf]
      exact step_trans step_addDebug (step_trans step_addDebug (ih _))
    · simp only [desperateAux, hf]
      by_cases h200 : resp.status = 200
      · rw [if_pos h200]
        by_cases hc : containsStr (lowerString resp.text) "onlyfans" = true
        · rw [if_pos hc]
          by_cases hne : ofUrlFindall resp.text ≠ []
          · rw [if_pos hne]
            exact step_trans step_addDebug (step_trans step_addDebug
              (step_trans (step_setFound (dedupS_ne_nil hne)) step_addDebug))
          · rw [if_neg hne]
            exact step_trans step_addDebug (step_trans step_addDebug
              (step_trans (step_setFound (by simp)) step_addDebug))
        · rw [if_neg hc]
          exact step_trans step_addDebug (ih _)
      · rw [if_neg h200]
        by_cases h403 : resp.status = 403
        · rw [if_pos h403]
          exact step_trans step_addDebug (step_trans step_addDebug (ih _))
        · rw [if_neg h403]
          refine step_trans ?_ (ih _)
          split
          · exact step_trans step_addDebug step_addDebug
          · exact step_addDebug

theorem finalFallbackExtraction_step (fetch4 : Nat → Except String Resp)
    (r : DetRes) : Step r (finalFallbackExtraction fetch4 r).2 :=
  finalFallbackAux_step fetch4 [0, 1] r

theorem desperateModeExtraction_step (fetch5 : Nat → Except String Resp)
    (r : DetRes) : Step r (desperateModeExtraction fetch5 r).2 :=
  step_trans step_addDebug (desperateAux_step fetch5 [1, 2, 3] _)

/-! ### Trace structure of the scheduler tail (C1 scaffolding)

`TailGood lo t0 out` says: the run extended the already-recorded trace `t0`
by a non-empty suffix of phases whose indices are strictly ascending and all
above `lo`, every entry except possibly the last failed, and the final
`detection_method` is the label of the last entry iff it succeeded. -/

/-- Well-formedness of the trace suffix a scheduler tail produces. -/
def TailGood (lo : Nat) (t0 : Trace) (out : DetRes × Trace) : Prop :=
  ∃ s, out.2 = t0 ++ s ∧ s ≠ [] ∧
    ((s.map fun x : PhaseTag × Bool => x.1.idx).Chain' (· < ·)) ∧
    (∀ x ∈ s, lo < x.1.idx) ∧
    (∀ x ∈ s.dropLast, x.2 = false) ∧
    (∀ p : PhaseTag, s.getLast? = some (p, true) →
      out.1.detection_method = some (phaseLabel p)) ∧
    (∀ p : PhaseTag, s.getLast? = some (p, false) →
      out.1.detection_method = none)

theorem tailGood_mono {lo lo' : Nat} {t0 : Trace} {out : DetRes × Trace}
    (h : lo' ≤ lo) (hg : TailGood lo t0 out) : TailGood lo' t0 out := by
  obtain ⟨s, h1, h2, h3, h4, h5, h6, h7⟩ := hg
  exact ⟨s, h1, h2, h3, fun x hx => lt_of_le_of_lt h (h4 x hx), h5, h6, h7⟩

/-- A tail consisting of exactly one phase entry. -/
theorem tailGood_single {lo : Nat} {p : PhaseTag} {t0 : Trace} {res : DetRes}
    {t' : Trace} (b : Bool) (hlo : lo < p.idx) (ht : t' = t0 ++ [(p, b)])
    (hT : b = true → res.detection_method = some (phaseLabel p))
    (hF : b = false → res.detection_method = none) :
    TailGood lo t0 (res, t') := by
  refine ⟨[(p, b)], ht, by simp, by simp, ?_, by simp, ?_, ?_⟩
  · intro x hx
    rw [List.mem_singleton] at hx
    rw [hx]
    exact hlo
  · intro q hq
    simp only [List.getLast?_singleton, Option.some.injEq, Prod.mk.injEq] at hq
    rw [← hq.1]
    exact hT hq.2
  · intro q hq
    simp only [List.getLast?_singleton, Option.some.injEq, Prod.mk.injEq] at hq
    exact hF hq.2

/-- Prepend a failed phase entry below every index of a good tail. -/
theorem tailGood_cons {lo : Nat} {p : PhaseTag} {t0 : Trace}
    {out : DetRes × Trace} (hlo : lo < p.idx)
    (hg : TailGood p.idx (t0 ++ [(p, false)]) out) : TailGood lo t0 out := by
  obtain ⟨s, h1, h2, h3, h4, h5, h6, h7⟩ := hg
  obtain ⟨y, ys, rfl⟩ := List.exists_cons_of_ne_nil h2
  refine ⟨(p, false) :: y :: ys, by rw [h1]; simp, by simp, ?_, ?_, ?_, ?_, ?_⟩
  · rw [List.map_cons, List.chain'_cons']
    refine ⟨?_, h3⟩
    intro z hz
    rw [List.head?_map] at hz
    simp only [List.head?_cons] at hz
    obtain rfl : y.1.idx = z := by simpa using hz
    exact h4 y (List.mem_cons_self y ys)
  · intro x hx
    rcases List.mem_cons.mp hx with rfl | hx
    · exact hlo
    · exact lt_trans hlo (h4 x hx)
  · intro x hx
    rw [List.dropLast_cons₂] at hx
    rcases List.mem_cons.mp hx with rfl | hx
    · rfl
    · exact h5 x hx
  · intro q hq
    rw [List.getLast?_cons_cons] at hq
    exact h6 q hq
  · intro q hq
    rw [List.getLast?_cons_cons] at hq
    exact h7 q hq

theorem runPhase45_spec (env : Env) (t : Trace) (r : DetRes)
    (hm : r.detection_method = none) : TailGood 4 t (runPhase45 env t r) := by
  simp only [runPhase45]
  split
  · rename_i r4 heq
    exact tailGood_single (p := .p4) true (by decide) rfl
      (fun _ => by simp [setMethod]) (fun hb => nomatch hb)
  · rename_i r4 heq
    have hm4 : r4.detection_method = none := by
      have hstep := finalFallbackExtraction_step env.fetch4
        (addDebug r "Phase 4: Final fallback extraction")
      rw [heq] at hstep
      exact hstep.1.trans hm
    split
    · rename_i r5 heq5
      refine tailGood_cons (p := .p4) (by decide) ?_
      exact tailGood_single (p := .p5) true (by decide) (by simp)
        (fun _ => by simp [setMethod]) (fun hb => nomatch hb)
    · rename_i r5 heq5
      have hm5 : r5.detection_method = none := by
        have hstep := desperateModeExtraction_step env.fetch5
          (addDebug r4 "Phase 5: Desperate mode extraction")
        rw [heq5] at hstep
        exact hstep.1.trans hm4
      refine tailGood_cons (p := .p4) (by decide) ?_
      exact tailGood_single (p := .p5) false (by decide) (by simp)
        (fun hb => nomatch hb) (fun _ => hm5)

theorem runPhase35_spec (env : Env) (t : Trace) (r : DetRes)
    (hm : r.detection_method = none) : TailGood 3 t (runPhase35 env t r) := by
  simp only [runPhase35]
  by_cases hl : containsStr (lowerString env.bioLink) "link.me" = true
  · rw [if_pos hl]
    rcases hlf : handleLinkmeFallback env.fetchLm env.bioLink
        (addDebug r "Phase 3.5: Special link.me fallback detection") with ⟨b, r35⟩
    have hstep := handleLinkmeFallback_step env.fetchLm env.bioLink
      (addDebug r "Phase 3.5: Special link.me fallback detection")
    rw [hlf] at hstep
    cases b with
    | true =>
      simp only [hlf]
      exact tailGood_single (p := .p35) true (by decide) rfl
        (fun _ => by simp [setMethod]) (fun hb => nomatch hb)
    | false =>
      simp only [hlf]
      have hm35 : r35.detection_method = none := hstep.1.trans hm
      refine tailGood_cons (p := .p35) (by decide) ?_
      exact runPhase45_spec env (t ++ [(.p35, false)]) r35 hm35
  · rw [if_neg hl]
    exact tailGood_mono (by omega) (runPhase45_spec env t r hm)

theorem runPhase3_spec (env : Env) (t : Trace) (r : DetRes)
    (hm : r.detection_method = none) : TailGood 2 t (runPhase3 env t r) := by
  simp only [runPhase3]
  by_cases hp : env.playwright = true
  · rw [if_pos hp]
    rcases h3 : phase3 env.linkme env.beacons env.beaconsAlt env.xli env.generic
        env.bioLink (addDebug r "Phase 3: Interactive detection with Playwright") with ⟨b, r3⟩
    have hstep := phase3_step env.linkme env.beacons env.beaconsAlt env.xli env.generic
      env.bioLink (addDebug r "Phase 3: Interactive detection with Playwright")
    rw [h3] at hstep
    cases b with
    | true =>
      simp only [h3]
      exact tailGood_single (p := .p3) true (by decide) rfl
        (fun _ => by simp [setMethod]) (fun hb => nomatch hb)
    | false =>
      simp only [h3]
      have hm3 : r3.detection_method = none := hstep.1.trans hm
      refine tailGood_cons (p := .p3) (by decide) ?_
      exact tailGood_mono (by decide) (runPhase35_spec env (t ++ [(.p3, false)]) r3 hm3)
  · rw [if_neg hp]
    have h35 : TailGood 3 t (runPhase35 env t
        (if ageFlag r then addDebug r "Phase 3: Skipped (Playwright not available)" else r)) := by
      split
      · exact runPhase35_spec env t _ hm
      · exact runPhase35_spec env t r hm
    exact tailGood_mono (by omega) h35

/-! ### Error and evidence propagation through the scheduler tail -/

/-- What the scheduler (which may also set `detection_method`) guarantees:
errors are never dropped and the evidence invariant is preserved. -/
def Soft (a b : DetRes) : Prop :=
  (∀ m ∈ a.errors, m ∈ b.errors) ∧ (EvUrls a → EvUrls b)

theorem soft_of_step {a b : DetRes} (h : Step a b) : Soft a b := ⟨h.2.1, h.2.2⟩

theorem soft_trans {a b c : DetRes} (h1 : Soft a b) (h2 : Soft b c) : Soft a c :=
  ⟨fun m hm => h2.1 m (h1.1 m hm), fun h => h2.2 (h1.2 h)⟩

theorem soft_setMethod {a : DetRes} {m : String} : Soft a (setMethod a m) :=
  ⟨fun _ hm => hm, fun h => h⟩

theorem runPhase45_soft (env : Env) (t : Trace) (r : DetRes) :
    Soft r (runPhase45 env t r).1 := by
  simp only [runPhase45]
  split
  · rename_i r4 heq
    have hstep := finalFallbackExtraction_step env.fetch4
      (addDebug r "Phase 4: Final fallback extraction")
    rw [heq] at hstep
    exact soft_trans (soft_of_step (step_trans step_addDebug hstep)) soft_setMethod
  · rename_i r4 heq
    have hstep := finalFallbackExtraction_step env.fetch4
      (addDebug r "Phase 4: Final fallback extraction")
    rw [heq] at hstep
    have hs4 : Soft r r4 := soft_of_step (step_trans step_addDebug hstep)
    split
    · rename_i r5 heq5
      have hstep5 := desperateModeExtraction_step env.fetch5
        (addDebug r4 "Phase 5: Desperate mode extraction")
      rw [heq5] at hstep5
      exact soft_trans hs4
        (soft_trans (soft_of_step (step_trans step_addDebug hstep5)) soft_setMethod)
    · rename_i r5 heq5
      have hstep5 := desperateModeExtraction_step env.fetch5
        (addDebug r4 "Phase 5: Desperate mode extraction")
      rw [heq5] at hstep5
      exact soft_trans hs4
        (soft_of_step (step_trans (step_trans step_addDebug hstep5) step_addDebug))

theorem runPhase35_soft (env : Env) (t : Trace) (r : DetRes) :
    Soft r (runPhase35 env t r).1 := by
  simp only [runPhase35]
  by_cases hl : containsStr (lowerString env.bioLink) "link.me" = true
  · rw [if_pos hl]
    rcases hlf : handleLinkmeFallback env.fetchLm env.bioLink
        (addDebug r "Phase 3.5: Special link.me fallback detection") with ⟨b, r35⟩
    have hstep := handleLinkmeFallback_step env.fetchLm env.bioLink
      (addDebug r "Phase 3.5: Special link.me fallback detection")
    rw [hlf] at hstep
    have hs35 : Soft r r35 := soft_of_step (step_trans step_addDebug hstep)
    cases b with
    | true =>
      simp only [hlf]
      exact soft_trans hs35 soft_setMethod
    | false =>
      simp only [hlf]
      exact soft_trans hs35 (runPhase45_soft env _ r35)
  · rw [if_neg hl]
    exact runPhase45_soft env t r

theorem runPhase3_soft (env : Env) (t : Trace) (r : DetRes) :
    Soft r (runPhase3 env t r).1 := by
  simp only [runPhase3]
  by_cases hp : env.playwright = true
  · rw [if_pos hp]
    rcases h3 : phase3 env.linkme env.beacons env.beaconsAlt env.xli env.generic
        env.bioLink (addDebug r "Phase 3: Interactive detection with Playwright") with ⟨b, r3⟩
    have hstep := phase3_step env.linkme env.beacons env.beaconsAlt env.xli env.generic
      env.bioLink (addDebug r "Phase 3: Interactive detection with Playwright")
    rw [h3] at hstep
    have hs3 : Soft r r3 := soft_of_step (step_trans step_addDebug hstep)
    cases b with
    | true =>
      simp only [h3]
      exact soft_trans hs3 soft_setMethod
    | false =>
      simp only [h3]
      exact soft_trans hs3 (runPhase35_soft env _ r3)
  · rw [if_neg hp]
    split
    · exact soft_trans (soft_of_step step_addDebug) (runPhase35_soft env t _)
    · exact runPhase35_soft env t r

/-- The whole pipeline, from the post-phase-1 results dict to the returned
one, is a `Soft` evolution. -/
theorem detectOnlyfans_soft (env : Env) (r : DetRes) (t : Trace)
    (h : detectOnlyfans env = some (r, t)) :
    Soft (phase1 env.fetch1 (addDebug initRes "Phase 1: Fast HTTP detection")).2 r := by
  simp only [detectOnlyfans] at h
  rcases h1 : phase1 env.fetch1 (addDebug initRes "Phase 1: Fast HTTP detection") with ⟨b1, r1⟩
  cases b1 with
  | true =>
    simp only [h1] at h
    obtain rfl : setMethod r1 (phaseLabel .p1) = r := congrArg Prod.fst (Option.some.inj h)
    exact soft_setMethod
  | false =>
    simp only [h1] at h
    rcases h2 : phase2 env.fetchR env.fetchUA env.fetch2c env.patternHits env.bioLink
        (addDebug r1 "Phase 2: Enhanced HTTP detection") with _ | ⟨b2, r2⟩
    · simp [h2] at h
    · have hstep2 := phase2_step env.fetchR env.fetchUA env.fetch2c env.patternHits
        env.bioLink (addDebug r1 "Phase 2: Enhanced HTTP detection") b2 r2 h2
      have hs2 : Soft r1 r2 := soft_of_step (step_trans step_addDebug hstep2)
      cases b2 with
      | true =>
        simp only [h2] at h
        obtain rfl : setMethod r2 (phaseLabel .p2) = r := congrArg Prod.fst (Option.some.inj h)
        exact soft_trans hs2 soft_setMethod
      | false =>
        simp only [h2] at h
        have hout : runPhase3 env [(.p1, false), (.p2, false)] r2 = (r, t) :=
          Option.some.inj h
        have hs3 := runPhase3_soft env [(.p1, false), (.p2, false)] r2
        rw [hout] at hs3
        exact soft_trans hs2 hs3

/-- Deduce the C1 conjuncts for the whole trace from a good tail over the
empty prefix. -/
theorem tailGood_final {r : DetRes} {t : Trace} (hg : TailGood 0 [] (r, t)) :
    t ≠ [] ∧ ((t.map fun x : PhaseTag × Bool => x.1.idx).Chain' (· < ·)) ∧
    (∀ x ∈ t.dropLast, x.2 = false) ∧
    (∀ p : PhaseTag, t.getLast? = some (p, true) →
      r.detection_method = some (phaseLabel p)) ∧
    (∀ p : PhaseTag, t.getLast? = some (p, false) → r.detection_method = none) := by
  obtain ⟨s, hs, hne, hchain, hlo, hdrop, hT, hF⟩ := hg
  obtain rfl : t = s := by simpa using hs
  exact ⟨hne, hchain, hdrop, hT, hF⟩

/-- C1 — For every detection call that returns, the scheduler attempted the
phases in strictly ascending priority order (Phase 1 first), advanced past
a phase only when it returned an unsuccessful outcome (every trace entry
before the last records `false`), terminated at the first success (only the
final entry may record `true`), and the result's `detection_method` is
exactly the label of that successful phase — and is unset when every
attempted phase failed. -/
theorem detectOnlyfans_scheduler (env : Env) (r : DetRes) (t : Trace)
    (h : detectOnlyfans env = some (r, t)) :
    t ≠ [] ∧
    ((t.map fun x : PhaseTag × Bool => x.1.idx).Chain' (· < ·)) ∧
    (∀ x ∈ t.dropLast, x.2 = false) ∧
    (∀ p : PhaseTag, t.getLast? = some (p, true) →
      r.detection_method = some (phaseLabel p)) ∧
    (∀ p : PhaseTag, t.getLast? = some (p, false) → r.detection_method = none) := by
  simp only [detectOnlyfans] at h
  rcases h1 : phase1 env.fetch1 (addDebug initRes "Phase 1: Fast HTTP detection") with ⟨b1, r1⟩
  have hst1 := phase1_step env.fetch1 (addDebug initRes "Phase 1: Fast HTTP detection")
  rw [h1] at hst1
  cases b1 with
  | true =>
    simp only [h1] at h
    injection Option.some.inj h with hr ht
    subst hr
    subst ht
    refine tailGood_final ?_
    exact tailGood_single (p := .p1) true (by decide) (by simp)
      (fun _ => by simp [setMethod]) (fun hb => nomatch hb)
  | false =>
    simp only [h1] at h
    rcases h2 : phase2 env.fetchR env.fetchUA env.fetch2c env.patternHits env.bioLink
        (addDebug r1 "Phase 2: Enhanced HTTP detection") with _ | ⟨b2, r2⟩
    · simp [h2] at h
    · have hst2 := phase2_step env.fetchR env.fetchUA env.fetch2c env.patternHits
        env.bioLink (addDebug r1 "Phase 2: Enhanced HTTP detection") b2 r2 h2
      cases b2 with
      | true =>
        simp only [h2] at h
        injection Option.some.inj h with hr ht
        subst hr
        subst ht
        refine tailGood_final ?_
        refine tailGood_cons (p := .p1) (by decide) ?_
        exact tailGood_single (p := .p2) true (by decide) (by simp)
          (fun _ => by simp [setMethod]) (fun hb => nomatch hb)
      | false =>
        simp only [h2] at h
        have hout : runPhase3 env [(.p1, false), (.p2, false)] r2 = (r, t) :=
          Option.some.inj h
        have hm2 : r2.detection_method = none := hst2.1.trans hst1.1
        have hg := runPhase3_spec env [(.p1, false), (.p2, false)] r2 hm2
        rw [hout] at hg
        exact tailGood_final
          (tailGood_cons (p := .p1) (by decide)
            (tailGood_cons (p := .p2) (by decide) hg))

/-- C9 — In every returned `DetectionResult`, if `has_onlyfans` is true then
`onlyfans_urls` is non-empty (every phase sets the two together, with a
non-empty, guarded URL list), which implies the claimed disjunction. -/
theorem detectOnlyfans_evidence (env : Env) (r : DetRes) (t : Trace)
    (h : detectOnlyfans env = some (r, t)) (hm : r.has_onlyfans = true) :
    r.onlyfans_urls ≠ [] := by
  have hsoft := detectOnlyfans_soft env r t h
  have hr1 : EvUrls (phase1 env.fetch1 (addDebug initRes "Phase 1: Fast HTTP detection")).2 :=
    (phase1_step env.fetch1 (addDebug initRes "Phase 1: Fast HTTP detection")).2.2
      (fun hha => nomatch hha)
  exact hsoft.2 hr1 hm

/-- C3 — An exception inside phase 1 (the modelled fetch failing) is caught,
recorded as a `Phase 1 failed: ...` entry in the result's errors, the phase
counts as failed (the first trace entry is `(p1, false)`), and the scheduler
still attempts phase 2; the pipeline returns a result rather than
propagating the exception. -/
theorem phase_exception_recorded (env : Env) (e : String) (r : DetRes) (t : Trace)
    (hf : env.fetch1 = .error e) (h : detectOnlyfans env = some (r, t)) :
    ("Phase 1 failed: " ++ e) ∈ r.errors ∧
    t.head? = some (.p1, false) ∧
    (∃ x ∈ t, x.1 = (.p2 : PhaseTag)) := by
  have h1 : phase1 env.fetch1 (addDebug initRes "Phase 1: Fast HTTP detection") =
      (false, addErr (addDebug initRes "Phase 1: Fast HTTP detection")
        ("Phase 1 failed: " ++ e)) := by
    rw [hf]
    rfl
  constructor
  · have hsoft := detectOnlyfans_soft env r t h
    rw [h1] at hsoft
    exact hsoft.1 _ (by simp [addErr])
  · simp only [detectOnlyfans, h1] at h
    rcases h2 : phase2 env.fetchR env.fetchUA env.fetch2c env.patternHits env.bioLink
        (addDebug (addErr (addDebug initRes "Phase 1: Fast HTTP detection")
          ("Phase 1 failed: " ++ e)) "Phase 2: Enhanced HTTP detection") with _ | ⟨b2, r2⟩
    · simp [h2] at h
    · cases b2 with
      | true =>
        simp only [h2] at h
        injection Option.some.inj h with hr ht
        subst ht
        exact ⟨rfl, ⟨(.p2, true), by simp, rfl⟩⟩
      | false =>
        simp only [h2] at h
        have hout : runPhase3 env [(.p1, false), (.p2, false)] r2 = (r, t) :=
          Option.some.inj h
        have hm2 : r2.detection_method = none := by
          have hst2 := phase2_step env.fetchR env.fetchUA env.fetch2c env.patternHits
            env.bioLink _ false r2 h2
          exact hst2.1
        have hg := runPhase3_spec env [(.p1, false), (.p2, false)] r2 hm2
        rw [hout] at hg
        obtain ⟨s, hs, hne, -, -, -, -, -⟩ := hg
        have ht : t = [((.p1 : PhaseTag), false), (.p2, false)] ++ s := hs
        rw [ht]
        exact ⟨rfl, ⟨(.p2, false), by simp, rfl⟩⟩

/-! ### Concrete detection-call environments -/

/-- A plain 200 response with no OnlyFans evidence. -/
def respPlain : Resp := { status := 200, location := none, text := "hello world" }

/-- Playwright unavailable, a generic (non-link.me) target, and every fetch
answering 200 with no evidence: every phase fails. -/
def envC6 : Env :=
  { playwright := false
    bioLink := "https://example.com/u"
    fetch1 := .ok respPlain
    fetchR := fun _ => .ok respPlain
    fetchUA := fun _ => .ok respPlain
    fetch2c := .ok respPlain
    patternHits := fun _ => []
    linkme := .ok default
    beacons := .ok default
    beaconsAlt := fun _ => .ok respPlain
    xli := .ok default
    generic := .ok default
    fetchLm := fun _ => .ok respPlain
    fetch4 := fun _ => .ok respPlain
    fetch5 := fun _ => .ok respPlain }

/-- The output of the pipeline on `envC6`. -/
def outC6 : DetRes × Trace := (detectOnlyfans envC6).getD default

/-- C6 — When the browser-automation collaborator is unavailable
(`playwright = false`), the interactive phase is indeed skipped and the
remaining HTTP-only phases still run (phases 4 and 5 appear in the trace
and the diagnostics log) — but, contrary to the claim, the skip is NOT
recorded in the diagnostics: the `Phase 3: Skipped (Playwright not
available)` append sits behind the mutated
`elif self.results.get("age_verification_detected", False)` of line 136,
and that key is still unset at the line-136 check in every call: its only
assignment is line 723, inside phase 3.5, which runs after the phase-3
availability check and only for link.me targets, while `self.results` is
reset at the start of each call — so the entry never appears. -/
theorem playwright_skip_not_recorded :
    detectOnlyfans envC6 = some outC6 ∧
    envC6.playwright = false ∧
    ((PhaseTag.p4, false) ∈ outC6.2 ∧ (PhaseTag.p5, false) ∈ outC6.2) ∧
    "Phase 4: Final fallback extraction" ∈ outC6.1.debug_info ∧
    "Phase 5: Desperate mode extraction" ∈ outC6.1.debug_info ∧
    "Phase 3: Skipped (Playwright not available)" ∉ outC6.1.debug_info := by
  decide

/-- Witness for C1 at the all-fail environment. -/
theorem detectOnlyfans_scheduler_witness :
    detectOnlyfans envC6 = some (outC6.1, outC6.2) ∧
    (outC6.2 ≠ [] ∧
    ((outC6.2.map fun x : PhaseTag × Bool => x.1.idx).Chain' (· < ·)) ∧
    (∀ x ∈ outC6.2.dropLast, x.2 = false) ∧
    (∀ p : PhaseTag, outC6.2.getLast? = some (p, true) →
      outC6.1.detection_method = some (phaseLabel p)) ∧
    (∀ p : PhaseTag, outC6.2.getLast? = some (p, false) →
      outC6.1.detection_method = none)) :=
  ⟨by decide, detectOnlyfans_scheduler envC6 outC6.1 outC6.2 (by decide)⟩

/-- As `envC6` but the phase-1 fetch raises a transport exception. -/
def envC3 : Env := { envC6 with fetch1 := .error "connection timed out" }

/-- The output of the pipeline on `envC3`. -/
def outC3 : DetRes × Trace := (detectOnlyfans envC3).getD default

/-- Witness for C3: the phase-1 exception becomes a recorded error, phase 1
fails, and the pipeline still attempts the later phases. -/
theorem phase_exception_recorded_witness :
    envC3.fetch1 = .error "connection timed out" ∧
    detectOnlyfans envC3 = some (outC3.1, outC3.2) ∧
    (("Phase 1 failed: " ++ "connection timed out") ∈ outC3.1.errors ∧
    outC3.2.head? = some (.p1, false) ∧
    (∃ x ∈ outC3.2, x.1 = (.p2 : PhaseTag))) :=
  ⟨by rfl, by decide,
    phase_exception_recorded envC3 "connection timed out" outC3.1 outC3.2
      (by rfl) (by decide)⟩

/-- As `envC6` but the first fetch returns a page naming an OnlyFans
profile, so phase 1 succeeds. -/
def envC9 : Env :=
  { envC6 with fetch1 := .ok ⟨200, none, "see https://onlyfans.com/alice now"⟩ }

/-- The output of the pipeline on `envC9`. -/
def outC9 : DetRes × Trace := (detectOnlyfans envC9).getD default

/-- Witness for C9: a matched result carries non-empty evidence. -/
theorem detectOnlyfans_evidence_witness :
    detectOnlyfans envC9 = some (outC9.1, outC9.2) ∧
    outC9.1.has_onlyfans = true ∧
    outC9.1.onlyfans_urls ≠ [] :=
  ⟨by decide, by decide,
    detectOnlyfans_evidence envC9 outC9.1 outC9.2 (by decide) (by decide)⟩

end OFDetector
